import Mathlib

/-!
# Verification of the `newweb` single-page gallery's cache / loader / router layer

Shallow embedding of the repository's core utility classes:

* `Store` — the per-route LRU cache over `sessionStorage`
  (`src/js/utils/data-validator.js`, class `Store`);
* `DataValidator` — the defensive JSON-shape normalizer
  (`src/js/utils/data-validator.js`, class `DataValidator`);
* `DataLoader.loadJSON` — the fetch-with-retry JSON loader
  (`src/js/utils/initial-loader.js`, class `DataLoader`);
* `Router.navigate` / `Page.load` — navigation cancellation and the
  late-result discard guard (`src/unnamed/part_002`, `src/unnamed/part_005`);
* `Page.escapeURL` — the URL-protocol allowlist sanitizer
  (`src/unnamed/part_005`).

JavaScript objects with string keys are modelled as association lists in
insertion order (matching `Object.keys` iteration order); `Date.now()` is an
explicit `now : Nat` argument; `sessionStorage` is a key-value map plus an
explicit schedule of `setItem` outcomes (success / `QuotaExceededError` /
other exception) so that quota failures can be analysed; byte sizes
(`new Blob([s]).size`) are UTF-8 byte counts.
-/

/-! ## Association lists (JS object model, insertion-ordered) -/

/-- Lookup in an association list (JS `obj[key]`, `undefined` modelled as `none`). -/
def alookup {β : Type _} (k : String) : List (String × β) → Option β
  | [] => none
  | (k', v) :: rest => if k' = k then some v else alookup k rest

/-- Assignment `obj[key] = v`: updates in place, appends at the end if the key
is absent (JS insertion order). -/
def aset {β : Type _} (k : String) (v : β) : List (String × β) → List (String × β)
  | [] => [(k, v)]
  | (k', v') :: rest => if k' = k then (k, v) :: rest else (k', v') :: aset k v rest

/-- Deletion `delete obj[key]`. -/
def aerase {β : Type _} (k : String) (l : List (String × β)) : List (String × β) :=
  l.filter (fun p => p.1 ≠ k)

theorem alookup_aset_self {β : Type _} (k : String) (v : β) (l : List (String × β)) :
    alookup k (aset k v l) = some v := by
  induction l with
  | nil => simp [aset, alookup]
  | cons p rest ih =>
    obtain ⟨k', v'⟩ := p
    by_cases h : k' = k <;> simp [aset, alookup, h, ih]

theorem alookup_aset_ne {β : Type _} {k k' : String} (v : β) (l : List (String × β))
    (h : k' ≠ k) : alookup k' (aset k v l) = alookup k' l := by
  have h' : ¬(k = k') := fun hh => h hh.symm
  induction l with
  | nil => simp [aset, alookup, h']
  | cons p rest ih =>
    obtain ⟨k₀, v₀⟩ := p
    by_cases h₀ : k₀ = k
    · subst h₀
      simp [aset, alookup, h']
    · by_cases h₁ : k₀ = k'
      · subst h₁
        simp [aset, alookup, h₀]
      · simp [aset, alookup, h₀, h₁, ih]

theorem alookup_aerase_self {β : Type _} (k : String) (l : List (String × β)) :
    alookup k (aerase k l) = none := by
  induction l with
  | nil => simp [aerase, alookup]
  | cons p rest ih =>
    obtain ⟨k', v'⟩ := p
    by_cases h : k' = k <;> simp [aerase, alookup, h] at ih ⊢ <;> simp [ih]

theorem alookup_aerase_ne {β : Type _} {k k' : String} (l : List (String × β))
    (h : k' ≠ k) : alookup k' (aerase k l) = alookup k' l := by
  have h' : ¬(k = k') := fun hh => h hh.symm
  induction l with
  | nil => simp [aerase, alookup]
  | cons p rest ih =>
    obtain ⟨k₀, v₀⟩ := p
    by_cases h₀ : k₀ = k
    · subst h₀
      simpa [aerase, alookup, h'] using ih
    · by_cases h₁ : k₀ = k'
      · subst h₁
        simp [aerase, alookup, h₀]
      · simpa [aerase, alookup, h₀, h₁] using ih

theorem aset_map_fst_of_mem {β : Type _} (k : String) (v : β) (l : List (String × β))
    (h : (alookup k l).isSome) : (aset k v l).map Prod.fst = l.map Prod.fst := by
  induction l with
  | nil => simp [alookup] at h
  | cons p rest ih =>
    obtain ⟨k', v'⟩ := p
    by_cases h₀ : k' = k
    · simp [aset, h₀]
    · simp [alookup, h₀] at h
      simp [aset, h₀, ih h]

theorem aerase_map_fst {β : Type _} (k : String) (l : List (String × β)) :
    (aerase k l).map Prod.fst = (l.map Prod.fst).filter (fun x => x ≠ k) := by
  induction l with
  | nil => simp [aerase]
  | cons p rest ih =>
    obtain ⟨k', v'⟩ := p
    by_cases h : k' = k <;> simp [aerase, h] at ih ⊢ <;> simpa [aerase] using ih

/-! ## JavaScript value model -/

/-- Untyped JavaScript values as far as the validator needs them.
Numbers are modelled as integers (the validator only passes them through
`typeof` checks and `String(...)` coercion, never arithmetic). -/
inductive JSValue where
  | undefined : JSValue
  | null : JSValue
  | bool : Bool → JSValue
  | num : Int → JSValue
  | str : String → JSValue
  | arr : List JSValue → JSValue
  | obj : List (String × JSValue) → JSValue

/-- JS truthiness. Objects and arrays are always truthy. -/
def jsTruthy : JSValue → Bool
  | .undefined => false
  | .null => false
  | .bool b => b
  | .num n => n != 0
  | .str s => s ≠ ""
  | .arr _ => true
  | .obj _ => true

/-- The `typeof` operator (note `typeof null = "object"` and
`typeof [] = "object"`). -/
def jsTypeof : JSValue → String
  | .undefined => "undefined"
  | .null => "object"
  | .bool _ => "boolean"
  | .num _ => "number"
  | .str _ => "string"
  | .arr _ => "object"
  | .obj _ => "object"

/-- `!v || typeof v !== 'object'` is false, i.e. the top-of-payload guard
all validator entry points use accepts `v`. -/
def jsObjectLike (v : JSValue) : Bool :=
  jsTruthy v && (jsTypeof v == "object")

/-- Property access `v.name` (`undefined` on non-objects, JS-style). -/
def jsGet (v : JSValue) (name : String) : JSValue :=
  match v with
  | .obj fields => (alookup name fields).getD .undefined
  | _ => .undefined

/-- JS `String(v)` coercion, as far as the validator uses it (`String(value)`
for non-string field values). Array formatting follows `Array.prototype.toString`
(elements joined with `","`, `null`/`undefined` elements rendered empty);
plain objects render as `"[object Object]"`. -/
def jsToString : JSValue → String
  | .undefined => "undefined"
  | .null => "null"
  | .bool b => if b then "true" else "false"
  | .num n => toString n
  | .str s => s
  | .arr xs =>
    String.intercalate "," (xs.attach.map (fun p =>
      match p with
      | ⟨.undefined, _⟩ => ""
      | ⟨.null, _⟩ => ""
      | ⟨v, _⟩ => jsToString v))
  | .obj _ => "[object Object]"
decreasing_by
  rename_i hmem
  have := List.sizeOf_lt_of_mem hmem
  simp only [JSValue.arr.sizeOf_spec]
  omega

/-! ## DataValidator (`src/js/utils/data-validator.js`, class `DataValidator`)

Each validator is embedded as a pure function returning the validated value
together with the list of error messages it appends to `this.errors`
(the instance mutates `this.errors` by pushes only, and every public
entry point resets it first, so the writer-style embedding is faithful). -/

/-- `DataValidator.validateString(value, fieldName, required)`.
`none` models a JS `null` return. -/
def validateString (value : JSValue) (fieldName : String) (required : Bool) :
    Option String × List String :=
  match value with
  | .undefined =>
    if required then (some "", ["Missing required field: " ++ fieldName]) else (none, [])
  | .null =>
    if required then (some "", ["Missing required field: " ++ fieldName]) else (none, [])
  | .str s => (some s, [])
  | v =>
    (some (jsToString v),
     ["Field " ++ fieldName ++ " must be a string, got " ++ jsTypeof v])

/-- `DataValidator.validateArray(value, fieldName, required)`. -/
def validateArray (value : JSValue) (fieldName : String) (required : Bool) :
    Option (List JSValue) × List String :=
  match value with
  | .undefined =>
    if required then (some [], ["Missing required field: " ++ fieldName]) else (none, [])
  | .null =>
    if required then (some [], ["Missing required field: " ++ fieldName]) else (none, [])
  | .arr xs => (some xs, [])
  | v =>
    (some [], ["Field " ++ fieldName ++ " must be an array, got " ++ jsTypeof v])

/-- `DataValidator.validateObject(value, fieldName, required)`. -/
def validateObject (value : JSValue) (fieldName : String) (required : Bool) :
    Option (List (String × JSValue)) × List String :=
  match value with
  | .undefined =>
    if required then (some [], ["Missing required field: " ++ fieldName]) else (none, [])
  | .null =>
    if required then (some [], ["Missing required field: " ++ fieldName]) else (none, [])
  | .obj fields => (some fields, [])
  | v =>
    (some [], ["Field " ++ fieldName ++ " must be an object, got " ++ jsTypeof v])

/-- JS `x || ''` applied to a `string | null` validator result. -/
def orEmpty (x : Option String) : String :=
  match x with
  | some s => s
  | none => ""

/-- JS `x || null` applied to a `string | null` validator result
(an empty string is falsy, hence also mapped to `null`). -/
def orNull (x : Option String) : Option String :=
  match x with
  | some s => if s = "" then none else some s
  | none => none

/-- JS `x || []` applied to an `Array | null` validator result. -/
def orNil (x : Option (List JSValue)) : List JSValue :=
  match x with
  | some xs => xs
  | none => []

/-- Validated video object (result shape of `DataValidator.validateVideo`). -/
structure VVideo where
  url : String
  thumbnail : String
  duration : String

/-- Validated post (result shape of `DataValidator.validatePost`). -/
structure VPost where
  id : String
  date : String
  title : String
  description : String
  mainImage : String
  screenshots : List JSValue
  video : VVideo

/-- `DataValidator.validateVideo(video, fieldName)` (with the default
`required = true`, `validateObject` can only return an object, so the
`!videoObj` fallback is kept but unreachable). -/
def validateVideo (video : JSValue) (fieldName : String) : VVideo × List String :=
  match validateObject video fieldName true with
  | (none, errs) => (⟨"", "", ""⟩, errs)
  | (some fields, errs) =>
    let vobj : JSValue := .obj fields
    let u := validateString (jsGet vobj "url") (fieldName ++ ".url") true
    let t := validateString (jsGet vobj "thumbnail") (fieldName ++ ".thumbnail") false
    let d := validateString (jsGet vobj "duration") (fieldName ++ ".duration") false
    (⟨orEmpty u.1, orEmpty t.1, orEmpty d.1⟩, errs ++ u.2 ++ t.2 ++ d.2)

/-- `DataValidator.validatePost(post)`; `none` models a JS `null` return. -/
def validatePost (post : JSValue) : Option VPost × List String :=
  if jsObjectLike post then
    let i := validateString (jsGet post "id") "post.id" true
    let dt := validateString (jsGet post "date") "post.date" true
    let ti := validateString (jsGet post "title") "post.title" true
    let de := validateString (jsGet post "description") "post.description" false
    let mi := validateString (jsGet post "mainImage") "post.mainImage" true
    let sc := validateArray (jsGet post "screenshots") "post.screenshots" false
    let vi := validateVideo (jsGet post "video") "post.video"
    (some ⟨orEmpty i.1, orEmpty dt.1, orEmpty ti.1, orEmpty de.1, orEmpty mi.1,
           orNil sc.1, vi.1⟩,
     i.2 ++ dt.2 ++ ti.2 ++ de.2 ++ mi.2 ++ sc.2 ++ vi.2)
  else (none, ["Post must be an object"])

/-- `xs.map(f).filter(x => x !== null)` with error accumulation in order
(the `map`-then-`filter` idiom of the collection validators). -/
def validateList {α : Type _} (f : JSValue → Option α × List String) :
    List JSValue → List α × List String
  | [] => ([], [])
  | v :: rest =>
    let r := f v
    let rs := validateList f rest
    (match r.1 with
     | some a => a :: rs.1
     | none => rs.1,
     r.2 ++ rs.2)

/-- `xs.map((x, idx) => f idx x)` with error accumulation in order
(the index is threaded because error messages embed it). -/
def validateMapIdx {α : Type _} (f : Nat → JSValue → α × List String) :
    Nat → List JSValue → List α × List String
  | _, [] => ([], [])
  | idx, v :: rest =>
    let r := f idx v
    let rs := validateMapIdx f (idx + 1) rest
    (r.1 :: rs.1, r.2 ++ rs.2)

/-- Validated collection image (result shape of
`DataValidator.validateCollectionImage`). -/
structure VCollImage where
  id : String
  url : String
  title : String
  description : String
  screenshots : List JSValue
  videos : List VVideo
  downloadLink : String

/-- `DataValidator.validateCollectionImage(image)`. -/
def validateCollectionImage (image : JSValue) : Option VCollImage × List String :=
  if jsObjectLike image then
    let i := validateString (jsGet image "id") "image.id" true
    let u := validateString (jsGet image "url") "image.url" true
    let t := validateString (jsGet image "title") "image.title" false
    let de := validateString (jsGet image "description") "image.description" false
    let sc := validateArray (jsGet image "screenshots") "image.screenshots" false
    let vs := validateArray (jsGet image "videos") "image.videos" false
    let dl := validateString (jsGet image "downloadLink") "image.downloadLink" false
    let rawVideos := orNil vs.1
    let vv :=
      if rawVideos.length > 0 then
        validateMapIdx
          (fun idx v => validateVideo v ("image.videos[" ++ toString idx ++ "]"))
          0 rawVideos
      else ([], [])
    (some ⟨orEmpty i.1, orEmpty u.1, orEmpty t.1, orEmpty de.1, orNil sc.1,
           vv.1, orEmpty dl.1⟩,
     i.2 ++ u.2 ++ t.2 ++ de.2 ++ sc.2 ++ vs.2 ++ dl.2 ++ vv.2)
  else (none, ["Collection image must be an object"])

/-- Validated collection (result shape of `DataValidator.validateCollection`). -/
structure VCollection where
  id : String
  title : String
  date : Option String
  description : String
  images : List VCollImage

/-- `DataValidator.validateCollection(collection)`. -/
def validateCollection (collection : JSValue) : Option VCollection × List String :=
  if jsObjectLike collection then
    let i := validateString (jsGet collection "id") "collection.id" true
    let t := validateString (jsGet collection "title") "collection.title" true
    let dt := validateString (jsGet collection "date") "collection.date" false
    let de := validateString (jsGet collection "description") "collection.description" false
    let im := validateArray (jsGet collection "images") "collection.images" false
    let rawImages := orNil im.1
    let vi :=
      if rawImages.length > 0 then validateList validateCollectionImage rawImages
      else ([], [])
    (some ⟨orEmpty i.1, orEmpty t.1, orNull dt.1, orEmpty de.1, vi.1⟩,
     i.2 ++ t.2 ++ dt.2 ++ de.2 ++ im.2 ++ vi.2)
  else (none, ["Collection must be an object"])

/-- The `type` argument of `DataValidator.validateGroup`. -/
inductive GroupKind where
  | screenshots : GroupKind
  | videos : GroupKind
deriving DecidableEq

/-- Validated group video entry (the inline shape built by
`DataValidator.validateGroup` for `type = 'videos'`). -/
structure VGroupVideo where
  url : String
  thumbnail : String
  duration : String
  title : String

/-- Validated group (result shape of `DataValidator.validateGroup`; the
`screenshots` field is populated for `type = 'screenshots'` and the `videos`
field for `type = 'videos'`, mirroring the conditional assignments). -/
structure VGroup where
  id : String
  title : String
  date : Option String
  description : String
  screenshots : List JSValue
  videos : List VGroupVideo

/-- The per-entry video normalization inside `DataValidator.validateGroup`
(`type = 'videos'` branch). -/
def validateGroupVideo (idx : Nat) (video : JSValue) : VGroupVideo × List String :=
  if jsObjectLike video then
    let fn := "group.videos[" ++ toString idx ++ "]"
    let u := validateString (jsGet video "url") (fn ++ ".url") true
    let t := validateString (jsGet video "thumbnail") (fn ++ ".thumbnail") false
    let d := validateString (jsGet video "duration") (fn ++ ".duration") false
    let ti := validateString (jsGet video "title") (fn ++ ".title") false
    (⟨orEmpty u.1, orEmpty t.1, orEmpty d.1, orEmpty ti.1⟩, u.2 ++ t.2 ++ d.2 ++ ti.2)
  else (⟨"", "", "", ""⟩, ["Group video[" ++ toString idx ++ "] must be an object"])

/-- `DataValidator.validateGroup(group, type)`. -/
def validateGroup (group : JSValue) (type_ : GroupKind) : Option VGroup × List String :=
  if jsObjectLike group then
    let i := validateString (jsGet group "id") "group.id" true
    let t := validateString (jsGet group "title") "group.title" true
    let dt := validateString (jsGet group "date") "group.date" false
    let de := validateString (jsGet group "description") "group.description" false
    match type_ with
    | .screenshots =>
      let sc := validateArray (jsGet group "screenshots") "group.screenshots" false
      (some ⟨orEmpty i.1, orEmpty t.1, orNull dt.1, orEmpty de.1, orNil sc.1, []⟩,
       i.2 ++ t.2 ++ dt.2 ++ de.2 ++ sc.2)
    | .videos =>
      let vs := validateArray (jsGet group "videos") "group.videos" false
      let rawVideos := orNil vs.1
      let vv :=
        if rawVideos.length > 0 then validateMapIdx validateGroupVideo 0 rawVideos
        else ([], [])
      (some ⟨orEmpty i.1, orEmpty t.1, orNull dt.1, orEmpty de.1, [], vv.1⟩,
       i.2 ++ t.2 ++ dt.2 ++ de.2 ++ vs.2 ++ vv.2)
  else (none, ["Group must be an object"])

/-- Validated history entry (result shape of
`DataValidator.validateHistoryEntry`). -/
structure VHistoryEntry where
  id : String
  date : String
  title : String
  description : String
  images : List JSValue

/-- `DataValidator.validateHistoryEntry(entry)`. -/
def validateHistoryEntry (entry : JSValue) : Option VHistoryEntry × List String :=
  if jsObjectLike entry then
    let i := validateString (jsGet entry "id") "entry.id" true
    let dt := validateString (jsGet entry "date") "entry.date" true
    let t := validateString (jsGet entry "title") "entry.title" true
    let de := validateString (jsGet entry "description") "entry.description" false
    let im := validateArray (jsGet entry "images") "entry.images" false
    (some ⟨orEmpty i.1, orEmpty dt.1, orEmpty t.1, orEmpty de.1, orNil im.1⟩,
     i.2 ++ dt.2 ++ t.2 ++ de.2 ++ im.2)
  else (none, ["History entry must be an object"])

/-- Validated profile (inner shape of `DataValidator.validateAbout`). -/
structure VProfile where
  avatar : String
  nickname : String
  bio : String
  bioSecond : String

/-- Validated timeline item. -/
structure VTimelineItem where
  date : String
  event : String

/-- Validated link. -/
structure VLink where
  name : String
  url : String
  icon : String

/-- Validated stat. -/
structure VStat where
  number : String
  label : String

/-- Validated section. -/
structure VSection where
  title : String
  description : String

/-- Validated about payload (result shape of `DataValidator.validateAbout`). -/
structure VAbout where
  profile : VProfile
  timeline : List VTimelineItem
  links : List VLink
  stats : List VStat
  sections : List VSection

/-- The per-item timeline normalization inside `DataValidator.validateAbout`.
Note that a non-object item is replaced with a default record, not dropped. -/
def validateTimelineItem (idx : Nat) (item : JSValue) : VTimelineItem × List String :=
  if jsObjectLike item then
    let fn := "timeline[" ++ toString idx ++ "]"
    let d := validateString (jsGet item "date") (fn ++ ".date") false
    let e := validateString (jsGet item "event") (fn ++ ".event") false
    (⟨orEmpty d.1, orEmpty e.1⟩, d.2 ++ e.2)
  else (⟨"", ""⟩, ["Timeline item[" ++ toString idx ++ "] must be an object"])

/-- The per-item link normalization inside `DataValidator.validateAbout`. -/
def validateLinkItem (idx : Nat) (link : JSValue) : VLink × List String :=
  if jsObjectLike link then
    let fn := "links[" ++ toString idx ++ "]"
    let n := validateString (jsGet link "name") (fn ++ ".name") false
    let u := validateString (jsGet link "url") (fn ++ ".url") false
    let ic := validateString (jsGet link "icon") (fn ++ ".icon") false
    (⟨orEmpty n.1, orEmpty u.1, orEmpty ic.1⟩, n.2 ++ u.2 ++ ic.2)
  else (⟨"", "", ""⟩, ["Link[" ++ toString idx ++ "] must be an object"])

/-- The per-item stat normalization inside `DataValidator.validateAbout`. -/
def validateStatItem (idx : Nat) (stat : JSValue) : VStat × List String :=
  if jsObjectLike stat then
    let fn := "stats[" ++ toString idx ++ "]"
    let n := validateString (jsGet stat "number") (fn ++ ".number") false
    let l := validateString (jsGet stat "label") (fn ++ ".label") false
    (⟨orEmpty n.1, orEmpty l.1⟩, n.2 ++ l.2)
  else (⟨"", ""⟩, ["Stat[" ++ toString idx ++ "] must be an object"])

/-- The per-item section normalization inside `DataValidator.validateAbout`. -/
def validateSectionItem (idx : Nat) (section_ : JSValue) : VSection × List String :=
  if jsObjectLike section_ then
    let fn := "sections[" ++ toString idx ++ "]"
    let t := validateString (jsGet section_ "title") (fn ++ ".title") false
    let d := validateString (jsGet section_ "description") (fn ++ ".description") false
    (⟨orEmpty t.1, orEmpty d.1⟩, t.2 ++ d.2)
  else (⟨"", ""⟩, ["Section[" ++ toString idx ++ "] must be an object"])

/-- Conditional indexed map: `if xs.length > 0 then xs.map((x,i) => f i x)`
(the `length > 0` guard of the `validateAbout` sub-array passes; an empty
array stays empty either way). -/
def mapIfNonEmpty {α : Type _} (f : Nat → JSValue → α × List String)
    (xs : List JSValue) : List α × List String :=
  if xs.length > 0 then validateMapIdx f 0 xs else ([], [])

/-- `DataValidator.validateAbout(data)` (resets `this.errors` first;
returned error list is the final `this.errors`). -/
def validateAboutRun (data : JSValue) : Option VAbout × List String :=
  if jsObjectLike data then
    let p := validateObject (jsGet data "profile") "profile" true
    let prof : VProfile × List String :=
      match p.1 with
      | some fields =>
        let pobj : JSValue := .obj fields
        let av := validateString (jsGet pobj "avatar") "profile.avatar" false
        let ni := validateString (jsGet pobj "nickname") "profile.nickname" false
        let bi := validateString (jsGet pobj "bio") "profile.bio" false
        let bs := validateString (jsGet pobj "bioSecond") "profile.bioSecond" false
        (⟨orEmpty av.1, orEmpty ni.1, orEmpty bi.1, orEmpty bs.1⟩,
         av.2 ++ ni.2 ++ bi.2 ++ bs.2)
      | none => (⟨"", "", "", ""⟩, [])
    let tl := validateArray (jsGet data "timeline") "timeline" false
    let li := validateArray (jsGet data "links") "links" false
    let st := validateArray (jsGet data "stats") "stats" false
    let se := validateArray (jsGet data "sections") "sections" false
    let vtl := mapIfNonEmpty validateTimelineItem (orNil tl.1)
    let vli := mapIfNonEmpty validateLinkItem (orNil li.1)
    let vst := mapIfNonEmpty validateStatItem (orNil st.1)
    let vse := mapIfNonEmpty validateSectionItem (orNil se.1)
    (some ⟨prof.1, vtl.1, vli.1, vst.1, vse.1⟩,
     p.2 ++ prof.2 ++ tl.2 ++ li.2 ++ st.2 ++ se.2 ++ vtl.2 ++ vli.2 ++ vst.2 ++ vse.2)
  else (none, ["About data must be an object"])

/-- Result shape of `DataValidator.validateMain`. -/
structure VMain where
  posts : List VPost

/-- `DataValidator.validateMain(data)` (resets `this.errors` first). -/
def validateMainRun (data : JSValue) : Option VMain × List String :=
  if jsObjectLike data then
    let ps := validateArray (jsGet data "posts") "posts" false
    let vp := validateList validatePost (orNil ps.1)
    (some ⟨vp.1⟩, ps.2 ++ vp.2)
  else (none, ["Main data must be an object"])

/-- Result shape of `DataValidator.validateCollections`. -/
structure VCollections where
  collections : List VCollection

/-- `DataValidator.validateCollections(data)`. -/
def validateCollectionsRun (data : JSValue) : Option VCollections × List String :=
  if jsObjectLike data then
    let cs := validateArray (jsGet data "collections") "collections" false
    let vc := validateList validateCollection (orNil cs.1)
    (some ⟨vc.1⟩, cs.2 ++ vc.2)
  else (none, ["Collections data must be an object"])

/-- Result shape of `DataValidator.validateScreenshots` and
`DataValidator.validateVideos`. -/
structure VGroups where
  groups : List VGroup

/-- `DataValidator.validateScreenshots(data)`. -/
def validateScreenshotsRun (data : JSValue) : Option VGroups × List String :=
  if jsObjectLike data then
    let gs := validateArray (jsGet data "groups") "groups" false
    let vg := validateList (fun g => validateGroup g .screenshots) (orNil gs.1)
    (some ⟨vg.1⟩, gs.2 ++ vg.2)
  else (none, ["Screenshots data must be an object"])

/-- `DataValidator.validateVideos(data)`. -/
def validateVideosRun (data : JSValue) : Option VGroups × List String :=
  if jsObjectLike data then
    let gs := validateArray (jsGet data "groups") "groups" false
    let vg := validateList (fun g => validateGroup g .videos) (orNil gs.1)
    (some ⟨vg.1⟩, gs.2 ++ vg.2)
  else (none, ["Videos data must be an object"])

/-- Result shape of `DataValidator.validateHistory`. -/
structure VHistory where
  entries : List VHistoryEntry

/-- `DataValidator.validateHistory(data)`. -/
def validateHistoryRun (data : JSValue) : Option VHistory × List String :=
  if jsObjectLike data then
    let es := validateArray (jsGet data "entries") "entries" false
    let ve := validateList validateHistoryEntry (orNil es.1)
    (some ⟨ve.1⟩, es.2 ++ ve.2)
  else (none, ["History data must be an object"])

/-- The raw array a payload offers under field `f` after the
`validateArray(..., required = false) || []` step (the spec-side view used to
state the filtering property). -/
def payloadArr (data : JSValue) (f : String) : List JSValue :=
  orNil (validateArray (jsGet data f) f false).1

/-! ## Store (`src/js/utils/data-validator.js`, class `Store`)

The `Store` is generic in the payloads it caches: the only payload-dependent
operations are `JSON.stringify` (on write), `JSON.parse` (on restore from
`sessionStorage`, which may fail on foreign strings) and JS truthiness
(`if (this.state[route])` in `get`). These are abstracted into `DataOps`. -/

/-- Payload interface used by the Store: serialization, deserialization
(possibly failing, modelling a `JSON.parse` throw) and JS truthiness. -/
structure DataOps (Data : Type) where
  stringify : Data → String
  parse : String → Option Data
  truthy : Data → Bool

/-- Outcome of one `Storage.setItem` call: success, a `QuotaExceededError`
(also covering `e.code === 22`), or any other exception. -/
inductive SetOutcome where
  | success : SetOutcome
  | quotaError : SetOutcome
  | otherError : SetOutcome
deriving DecidableEq

/-- A browser `Storage` object (`sessionStorage`): its key-value content plus
the schedule of outcomes its future `setItem` calls will produce (an empty
schedule means every write succeeds). -/
structure JsStorage where
  items : List (String × String)
  outcomes : List SetOutcome

/-- `storage.getItem(key)`. -/
def JsStorage.getItem (s : JsStorage) (k : String) : Option String :=
  alookup k s.items

/-- `storage.setItem(key, value)`: consumes the next scheduled outcome;
on success the item is written, on an exception nothing is stored. -/
def JsStorage.setItemRun (s : JsStorage) (k v : String) : SetOutcome × JsStorage :=
  match s.outcomes with
  | [] => (.success, ⟨aset k v s.items, []⟩)
  | .success :: rest => (.success, ⟨aset k v s.items, rest⟩)
  | o :: rest => (o, ⟨s.items, rest⟩)

/-- `storage.removeItem(key)`. -/
def JsStorage.removeItem (s : JsStorage) (k : String) : JsStorage :=
  ⟨aerase k s.items, s.outcomes⟩

/-- `new Blob([s]).size`: the UTF-8 byte size of the serialized string. -/
def blobSize (s : String) : Nat := s.utf8ByteSize

/-- The `sessionStorage` key for a route (`spa-cache-${route}`). -/
def cacheKey (route : String) : String := "spa-cache-" ++ route

/-- The Store's instance state. `state` maps each configured route to its
cached payload (`none` = JS `null`); `currentSize` is the running byte
counter (an `Int`, since the counter arithmetic can in principle go
negative); `transientStore` is `sessionStorage` when available. -/
structure Store (Data : Type) where
  maxSize : Nat
  currentSize : Int
  lastUsed : List (String × Nat)
  state : List (String × Option Data)
  lastLoadTime : List (String × Nat)
  cacheMaxAge : Nat
  transientStore : Option JsStorage

/-- `config.cacheMaxAge || (60 * 60 * 1000)` from the constructor:
the configured max age, defaulting to one hour (`0` is falsy in JS). -/
def initCacheMaxAge (cfg : Option Nat) : Nat :=
  match cfg with
  | some v => if v ≠ 0 then v else 60 * 60 * 1000
  | none => 60 * 60 * 1000

/-- The eligible entries of `Store.evictOldest`: routes other than
`excludeRoute` whose in-memory entry is neither `null` nor `undefined` and
whose `lastUsed` timestamp is present, paired with
`this.lastUsed[route] || 0`, in `Object.keys(this.state)` order. -/
def eligibleEntries {Data : Type} (st : Store Data) (excludeRoute : Option String) :
    List (String × Nat) :=
  (((st.state.map Prod.fst).filter (fun r =>
      (match excludeRoute with
       | some e => r ≠ e
       | none => true) &&
      (match alookup r st.state with
       | some (some _) => true
       | _ => false) &&
      (alookup r st.lastUsed).isSome)).map
    (fun r => (r, (alookup r st.lastUsed).getD 0)))

/-- The sorted eviction candidates: `routesWithTime` after the stable
ascending sort on `lastUsed` (JS `Array.prototype.sort` with comparator
`a.lastUsed - b.lastUsed` is stable). -/
def sortedEligible {Data : Type} (st : Store Data) (excludeRoute : Option String) :
    List (String × Nat) :=
  List.insertionSort (fun a b => a.2 ≤ b.2) (eligibleEntries st excludeRoute)

/-- The body of the eviction loop of `Store.evictOldest`: walk the sorted
candidates, stop once `freedSpace >= requiredSpace`, and for each remaining
candidate whose `sessionStorage` item is truthy (`if (cached)`), drop it
from memory, the timestamp maps and `sessionStorage`, updating the byte
counter. A candidate whose item is falsy — missing *or* the empty string —
is skipped: its entry is kept and nothing is freed. -/
def evictLoop {Data : Type} (required : Nat) :
    List String → Nat → Store Data → Store Data
  | [], _, st => st
  | r :: rest, freed, st =>
    if freed ≥ required then st
    else
      match st.transientStore with
      | none => evictLoop required rest freed st
      | some storage =>
        match storage.getItem (cacheKey r) with
        | none => evictLoop required rest freed st
        | some cached =>
          if cached = "" then evictLoop required rest freed st
          else
            let sz := blobSize cached
            let st' : Store Data :=
              { maxSize := st.maxSize
                currentSize := st.currentSize - sz
                lastUsed := aerase r st.lastUsed
                state := aset r none st.state
                lastLoadTime := aerase r st.lastLoadTime
                cacheMaxAge := st.cacheMaxAge
                transientStore := some (storage.removeItem (cacheKey r)) }
            evictLoop required rest (freed + sz) st'

/-- `Store.evictOldest(requiredSpace, excludeRoute)`. -/
def Store.evictOldest {Data : Type} (st : Store Data) (required : Nat)
    (excludeRoute : Option String) : Store Data :=
  evictLoop required ((sortedEligible st excludeRoute).map Prod.fst) 0 st

/-- `Store.clear(route)` (single-route form): subtract the stored item's
size from the byte counter, null the in-memory entry, drop both timestamps
and remove the `sessionStorage` item. A route not in `this.state` is
ignored. -/
def Store.clearRoute {Data : Type} (st : Store Data) (route : String) : Store Data :=
  match alookup route st.state with
  | none => st
  | some _ =>
    let deducted : Int :=
      match st.transientStore with
      | some storage =>
        match storage.getItem (cacheKey route) with
        | some cached => (blobSize cached : Int)
        | none => 0
      | none => 0
    { maxSize := st.maxSize
      currentSize := st.currentSize - deducted
      lastUsed := aerase route st.lastUsed
      state := aset route none st.state
      lastLoadTime := aerase route st.lastLoadTime
      cacheMaxAge := st.cacheMaxAge
      transientStore :=
        match st.transientStore with
        | some storage => some (storage.removeItem (cacheKey route))
        | none => none }

/-- The `sessionStorage` half of `Store.get` (the branch taken when the
in-memory entry is absent or falsy). -/
def Store.getFromStorage {Data : Type} (ops : DataOps Data) (st : Store Data)
    (route : String) (now : Nat) : Option Data × Store Data :=
  match st.transientStore with
  | none => (none, st)
  | some storage =>
    match storage.getItem (cacheKey route) with
    | none => (none, st)
    | some cached =>
      match ops.parse cached with
      | none => (none, st)
      | some d =>
        let st1 := { st with state := aset route (some d) st.state }
        let st2 :=
          if (alookup route st1.lastUsed).getD 0 = 0 then
            { st1 with currentSize := st1.currentSize + (blobSize cached : Int) }
          else st1
        let st3 := { st2 with lastUsed := aset route now st2.lastUsed }
        let st4 :=
          if (alookup route st3.lastLoadTime).getD 0 = 0 then
            { st3 with lastLoadTime := aset route now st3.lastLoadTime }
          else st3
        (some d, st4)

/-- `Store.get(route)` at time `now`: in-memory entry first (truthiness
check `if (this.state[route])`), then restoration from `sessionStorage`
(parse failure or absence yields `null` without throwing; on restore, the
byte counter is bumped only when `lastUsed` was unset, `lastUsed` is
refreshed, and `lastLoadTime` is set only when previously unset). -/
def Store.getRun {Data : Type} (ops : DataOps Data) (st : Store Data)
    (route : String) (now : Nat) : Option Data × Store Data :=
  match alookup route st.state with
  | some (some d) =>
    if ops.truthy d then
      (some d, { st with lastUsed := aset route now st.lastUsed })
    else Store.getFromStorage ops st route now
  | _ => Store.getFromStorage ops st route now

/-- The `oldSize` computed by `Store.set`: the stored item's byte size when
the route currently has a non-null in-memory entry, else `0`. -/
def Store.setOldSize {Data : Type} (st : Store Data) (route : String) : Nat :=
  match alookup route st.state with
  | some (some _) =>
    (match st.transientStore with
     | some storage =>
       (match storage.getItem (cacheKey route) with
        | some old => blobSize old
        | none => 0)
     | none => 0)
  | _ => 0

/-- The `newTotalSize` computed by `Store.set`
(`currentSize - oldSize + dataSize`). -/
def Store.setNewTotal {Data : Type} (ops : DataOps Data) (st : Store Data)
    (route : String) (d : Data) : Int :=
  st.currentSize - (Store.setOldSize st route : Int) + (blobSize (ops.stringify d) : Int)

/-- `Store.set(route, data)` at time `now`. A route not configured in
`this.state` is ignored. If the new total would exceed `maxSize`, other
routes are evicted first (`evictOldest(requiredSpace, route)`). The entry is
then written to memory and to `sessionStorage`; on a `QuotaExceededError`
the store evicts further (`evictOldest(dataSize, route)`) and retries the
write once, and if the retry also throws, rolls back the byte counter and
nulls the in-memory entry unless an old persisted entry existed
(`this.state[route] = oldSize > 0 ? this.state[route] : null`).
A non-quota `setItem` exception is swallowed with no retry. -/
def Store.setRun {Data : Type} (ops : DataOps Data) (st : Store Data)
    (route : String) (d : Data) (now : Nat) : Store Data :=
  match alookup route st.state with
  | none => st
  | some _ =>
    let dataString := ops.stringify d
    let dataSize := blobSize dataString
    let oldSize := Store.setOldSize st route
    let newTotal : Int := st.currentSize - (oldSize : Int) + (dataSize : Int)
    let st1 :=
      if newTotal > (st.maxSize : Int) then
        st.evictOldest (newTotal - (st.maxSize : Int)).toNat (some route)
      else st
    let st2 : Store Data :=
      { st1 with
        state := aset route (some d) st1.state
        currentSize := st1.currentSize - (oldSize : Int) + (dataSize : Int)
        lastUsed := aset route now st1.lastUsed
        lastLoadTime := aset route now st1.lastLoadTime }
    match st2.transientStore with
    | none => st2
    | some storage =>
      match storage.setItemRun (cacheKey route) dataString with
      | (.success, storage1) => { st2 with transientStore := some storage1 }
      | (.otherError, storage1) => { st2 with transientStore := some storage1 }
      | (.quotaError, storage1) =>
        let st3 :=
          ({ st2 with transientStore := some storage1 } : Store Data).evictOldest
            dataSize (some route)
        match st3.transientStore with
        | none => st3
        | some storage3 =>
          match storage3.setItemRun (cacheKey route) dataString with
          | (.success, storage4) => { st3 with transientStore := some storage4 }
          | (_, storage4) =>
            { st3 with
              transientStore := some storage4
              currentSize := st3.currentSize - (dataSize : Int) + (oldSize : Int)
              state :=
                if oldSize > 0 then st3.state else aset route none st3.state }

/-- `Store.has(route)` at time `now`: returns the boolean result and the
(possibly mutated, on expiry eviction) store. -/
def Store.hasRun {Data : Type} (st : Store Data) (route : String) (now : Nat) :
    Bool × Store Data :=
  let hasInMemory :=
    match alookup route st.state with
    | some (some _) => true
    | _ => false
  let hasInStorage :=
    match st.transientStore with
    | some storage => (storage.getItem (cacheKey route)).isSome
    | none => false
  if !hasInMemory && !hasInStorage then (false, st)
  else
    let lastLoad := (alookup route st.lastLoadTime).getD 0
    if lastLoad ≠ 0 then
      let age : Int := (now : Int) - (lastLoad : Int)
      if age > (st.cacheMaxAge : Int) then (false, st.clearRoute route)
      else (true, st)
    else
      if hasInMemory || hasInStorage then
        if (alookup route st.lastLoadTime).getD 0 = 0 then (false, st.clearRoute route)
        else (true, st)
      else (false, st)

/-! ## DataLoader (`src/js/utils/initial-loader.js`, class `DataLoader`)

`loadJSON` is embedded as a deterministic function over an environment
describing what the browser would do: one `AttemptEnv` per loop iteration
records the fetch outcome and the `signal.aborted` value at each of the
code's explicit check points (the aborted flag can only change across
`await` boundaries in the single-threaded browser model, so consecutive
synchronous checks read the same value). The injected `Store`, `Preloader`
and `LoaderAnimation` dependencies are abstracted: cache consultation results
come from a `StoreOracle` and cache mutations / delays are recorded as an
event trace. -/

/-- Result of `await response.json()`. -/
inductive JsonOutcome (Data : Type) where
  | ok : Data → JsonOutcome Data
  | parseError : JsonOutcome Data
  | abortRejected : JsonOutcome Data
deriving DecidableEq

/-- Result of `await fetch(url, ...)`. -/
inductive FetchOutcome (Data : Type) where
  | abortRejected : FetchOutcome Data
  | networkError : FetchOutcome Data
  | response : Bool → Nat → Option String → JsonOutcome Data → FetchOutcome Data
deriving DecidableEq

/-- The environment of one retry-loop iteration: the fetch outcome plus the
`signal.aborted` reading at each checkpoint (before the fetch; after the
response arrives; after `response.json()`; before and after the backoff
delay). -/
structure AttemptEnv (Data : Type) where
  abortedAtStart : Bool
  fetch : FetchOutcome Data
  abortedAfterFetch : Bool
  abortedAfterJson : Bool
  abortedBeforeDelay : Bool
  abortedAfterDelay : Bool
deriving DecidableEq

/-- Errors `loadJSON` / `_loadJSON` can throw; the retry logic
distinguishes them only by `error.name === 'AbortError'`. -/
inductive LoadErr where
  | abortError : LoadErr
  | invalidPath : LoadErr
  | mainContentMissing : LoadErr
  | httpError : Nat → LoadErr
  | contentTypeError : LoadErr
  | jsonParseError : LoadErr
  | validationError : LoadErr
  | networkError : LoadErr
deriving DecidableEq

/-- `error.name === 'AbortError'`. -/
def LoadErr.isAbort : LoadErr → Bool
  | .abortError => true
  | _ => false

/-- Observable actions of one `loadJSON` call (ghost trace):
network attempts started, Store mutations, preloader invocations and
backoff delays. -/
inductive DLEvent (Data : Type) where
  | fetchStarted : DLEvent Data
  | storeSet : String → Data → DLEvent Data
  | storeClear : String → DLEvent Data
  | preloadStarted : DLEvent Data
  | delayed : Nat → DLEvent Data
deriving DecidableEq

/-- The DataLoader's injected dependencies, abstracted: presence of the
`main-content` element, of the `store` and of the `preloader`, the
`validateData`-style validator, and payload truthiness (for
`if (cachedData)`). -/
structure DLConfig (Data : Type) where
  mainContentPresent : Bool
  storePresent : Bool
  preloaderPresent : Bool
  validate : String → Data → Option Data
  truthy : Data → Bool

/-- Results of the up to two `store.has(route)` consultations and of the
`store.get(route)` read in `loadJSON`'s cache fast path. -/
structure StoreOracle (Data : Type) where
  has1 : Bool
  has2 : Bool
  cached : Option Data

/-- Character-list test `sub` begins `hay`. -/
def charsStartWith : List Char → List Char → Bool
  | _, [] => true
  | [], _ :: _ => false
  | c :: rest, d :: dsub => (c = d) && charsStartWith rest dsub

/-- Character-list substring occurrence. -/
def charsContain (hay sub : List Char) : Bool :=
  match hay with
  | [] => sub.isEmpty
  | _ :: rest => charsStartWith hay sub || charsContain rest sub

/-- Substring test used for `contentType.includes('application/json')`. -/
def strContainsSub (s sub : String) : Bool :=
  charsContain s.data sub.data

/-- The fallback `pathToRouteMap` of the `DataLoader` constructor
(the table used when `window.APP_CONFIG` is not loaded; the configured
table has the same content). -/
def pathToRouteMap : List (String × String) :=
  [("data/main.json", "main"),
   ("data/collections.json", "collections"),
   ("data/screenshots.json", "screenshots"),
   ("data/videos.json", "videos"),
   ("data/history.json", "history"),
   ("data/about.json", "about")]

/-- `path.split('?')[0]`: the part of the path before the first `?`. -/
def stripQuery (path : String) : String :=
  String.mk (path.data.takeWhile (fun c => c ≠ '?'))

/-- `DataLoader.getRouteFromPath(path)`: strip query parameters, look up. -/
def getRouteFromPath (path : String) : Option String :=
  alookup (stripQuery path) pathToRouteMap

/-- One `DataLoader._loadJSON` attempt, as result plus event trace. -/
def attemptLoad {Data : Type} (cfg : DLConfig Data) (env : AttemptEnv Data)
    (path : String) (route : Option String) (wasInStore : Bool) :
    Except LoadErr Data × List (DLEvent Data) :=
  if ¬cfg.mainContentPresent then (.error .mainContentMissing, [])
  else if env.abortedAtStart then (.error .abortError, [])
  else
    match env.fetch with
    | .abortRejected => (.error .abortError, [.fetchStarted])
    | .networkError => (.error .networkError, [.fetchStarted])
    | .response ok status contentType body =>
      if ¬ok then (.error (.httpError status), [.fetchStarted])
      else if (match contentType with
          | some c => strContainsSub c "application/json"
          | none => false) = false then
        (.error .contentTypeError, [.fetchStarted])
      else if env.abortedAfterFetch then (.error .abortError, [.fetchStarted])
      else
        match body with
        | .abortRejected => (.error .abortError, [.fetchStarted])
        | .parseError => (.error .jsonParseError, [.fetchStarted])
        | .ok d =>
          if env.abortedAfterJson then (.error .abortError, [.fetchStarted])
          else
            match cfg.validate path d with
            | none => (.error .validationError, [.fetchStarted])
            | some vd =>
              if env.abortedAfterJson then (.error .abortError, [.fetchStarted])
              else
                let setEvs : List (DLEvent Data) :=
                  match route with
                  | some r => if cfg.storePresent then [.storeSet r vd] else []
                  | none => []
                let preEvs : List (DLEvent Data) :=
                  if cfg.preloaderPresent && !wasInStore then [.preloadStarted] else []
                (.ok vd, .fetchStarted :: (setEvs ++ preEvs))

/-- The retry loop of `DataLoader.loadJSON` (`for (let i = 0; i < retries; i++)`).
`fuel` is `retries - i`; a `.ok none` result models the `undefined` the JS
function returns when the loop runs zero iterations. -/
def loadLoop {Data : Type} (cfg : DLConfig Data) (path : String)
    (route : Option String) (wasInStore : Bool) :
    Nat → Nat → List (AttemptEnv Data) →
    Except LoadErr (Option Data) × List (DLEvent Data)
  | _, _, [] => (.ok none, [])
  | _, 0, _ => (.ok none, [])
  | i, fuel + 1, env :: rest =>
    match attemptLoad cfg env path route wasInStore with
    | (.ok d, evs) => (.ok (some d), evs)
    | (.error e, evs) =>
      if e.isAbort then (.error e, evs)
      else if fuel = 0 then (.error e, evs)
      else if env.abortedBeforeDelay then (.error .abortError, evs)
      else
        let delayEv : DLEvent Data := .delayed (1000 * (i + 1))
        if env.abortedAfterDelay then (.error .abortError, evs ++ [delayEv])
        else
          let next := loadLoop cfg path route wasInStore (i + 1) fuel rest
          (next.1, evs ++ delayEv :: next.2)

/-- The network part of `loadJSON` (after the cache fast path): the
forced-reload cache clear followed by the retry loop. -/
def loadJSONNet {Data : Type} (cfg : DLConfig Data) (path : String)
    (forceReload : Bool) (retries : Nat) (attempts : List (AttemptEnv Data))
    (route : Option String) (wasInStore : Bool) :
    Except LoadErr (Option Data) × List (DLEvent Data) :=
  let clearEvs : List (DLEvent Data) :=
    match route with
    | some r => if forceReload && cfg.storePresent then [.storeClear r] else []
    | none => []
  let res := loadLoop cfg path route wasInStore 0 retries attempts
  (res.1, clearEvs ++ res.2)

/-- `DataLoader.loadJSON(path, showLoader, forceReload, signal, retries)`.
`sigAtEntry` is `signal.aborted` at entry; the JS default is `retries = 3`. -/
def loadJSON {Data : Type} (cfg : DLConfig Data) (oracle : StoreOracle Data)
    (path : String) (forceReload : Bool) (sigAtEntry : Bool) (retries : Nat)
    (attempts : List (AttemptEnv Data)) :
    Except LoadErr (Option Data) × List (DLEvent Data) :=
  if path = "" then (.error .invalidPath, [])
  else if sigAtEntry then (.error .abortError, [])
  else
    let route := getRouteFromPath path
    let wasInStore := route.isSome && cfg.storePresent && !forceReload && oracle.has1
    if !forceReload && route.isSome && cfg.storePresent && oracle.has2 then
      match oracle.cached with
      | some d =>
        if cfg.truthy d then (.ok (some d), [])
        else loadJSONNet cfg path forceReload retries attempts route wasInStore
      | none => loadJSONNet cfg path forceReload retries attempts route wasInStore
    else loadJSONNet cfg path forceReload retries attempts route wasInStore

/-- The delays recorded in an event trace. -/
def delaysOf {Data : Type} (evs : List (DLEvent Data)) : List Nat :=
  evs.filterMap (fun ev =>
    match ev with
    | .delayed ms => some ms
    | _ => none)

/-- The number of network attempts recorded in an event trace. -/
def countFetch {Data : Type} (evs : List (DLEvent Data)) : Nat :=
  evs.countP (fun ev =>
    match ev with
    | .fetchStarted => true
    | _ => false)

/-- Whether a trace contains a `store.set` mutation. -/
def hasStoreSet {Data : Type} (evs : List (DLEvent Data)) : Bool :=
  evs.any (fun ev =>
    match ev with
    | .storeSet _ _ => true
    | _ => false)

/-! ## Router navigation and the late-result guard
(`src/unnamed/part_002`, `Router.navigate`; `src/unnamed/part_005`,
`Page.load`; `src/js/app.js`, `Application.loadPage`)

Abort controllers are modelled by numeric ids: `Router.navigate` aborts the
current controller (if any) and allocates a fresh one whose signal is passed
to the page load it starts. A load in flight is a `(route, signalId)` pair;
when its awaited data arrives, `Page.load` checks `signal.aborted` before
rendering and discards the result if the signal was aborted. `rendered` is
the route whose content currently fills `main-content`. -/

/-- The navigation system state. -/
structure NavState where
  nextId : Nat
  aborted : List Nat
  current : Option Nat
  currentRoute : Option String
  pending : List (String × Nat)
  rendered : Option String
deriving DecidableEq

/-- Initial state (no controller, nothing loaded). -/
def NavState.init : NavState :=
  { nextId := 0, aborted := [], current := none, currentRoute := none,
    pending := [], rendered := none }

/-- `Router.navigate(route)`: abort the previous request's controller, create
a fresh `AbortController`, and start the page load with its signal
(`this.app.loadPage(route, this.abortController.signal)`). -/
def navigate (s : NavState) (route : String) : NavState :=
  let aborted' :=
    match s.current with
    | some c => c :: s.aborted
    | none => s.aborted
  { nextId := s.nextId + 1
    aborted := aborted'
    current := some s.nextId
    currentRoute := some route
    pending := s.pending ++ [(route, s.nextId)]
    rendered := s.rendered }

/-- A pending load's awaited data arrives: `Page.load` resumes after
`await this.loadData(...)`, returns without rendering when
`signal && signal.aborted`, and renders the route's content otherwise. -/
def resolveLoad (s : NavState) (route : String) (id : Nat) : NavState :=
  let pending' := s.pending.erase (route, id)
  if id ∈ s.aborted then { s with pending := pending' }
  else { s with pending := pending', rendered := some route }

/-- Navigation events: a `Router.navigate` call or the completion of an
in-flight page load. -/
inductive NavEvent where
  | nav : String → NavEvent
  | res : String → Nat → NavEvent
deriving DecidableEq

/-- Apply one event. -/
def navStep (s : NavState) (ev : NavEvent) : NavState :=
  match ev with
  | .nav r => navigate s r
  | .res r i => resolveLoad s r i

/-- Run an event sequence from the initial state. -/
def navRun (evs : List NavEvent) : NavState :=
  evs.foldl navStep NavState.init

/-- Reachability invariant of the navigation system: every pending load
other than the current one carries an aborted signal, and controller ids
are bounded by the fresh counter. -/
def NavInv (s : NavState) : Prop :=
  (∀ p ∈ s.pending, s.current = some p.2 ∨ p.2 ∈ s.aborted) ∧
  (∀ i ∈ s.aborted, i < s.nextId) ∧
  (∀ c, s.current = some c → c < s.nextId ∧ c ∉ s.aborted)

/-! ## `Page.escapeURL` (`src/unnamed/part_005`)

The browser's `new URL(url, window.location.origin)` is the one external
primitive: it is abstracted as a `parseURL` oracle returning the parsed
protocol and `href` (or `none` when the constructor throws). -/

/-- A parsed `URL` object, as far as `escapeURL` reads it. -/
structure URLRec where
  protocol : String
  href : String

/-- The protocol allowlist of `Page.escapeURL`. -/
def allowedProtocols : List String := ["http:", "https:", "mailto:", "tel:"]

/-- `Page.escapeURL(url)`: empty string for falsy or non-string inputs;
otherwise parse against the document origin and return `parsed.href` only
when the protocol is allowlisted, the empty string on a parse failure or a
disallowed protocol. -/
def escapeURL (parseURL : String → Option URLRec) (url : JSValue) : String :=
  match url with
  | .str s =>
    if s = "" then ""
    else
      match parseURL s with
      | none => ""
      | some parsed =>
        if allowedProtocols.contains parsed.protocol then parsed.href else ""
  | _ => ""

/-! ## Concrete instantiations used by witnesses and counterexamples -/

/-- A concrete payload interface: payloads are their own serialized strings. -/
def demoOps : DataOps String :=
  { stringify := fun s => s, parse := fun s => some s, truthy := fun _ => true }

/-- Store fixture for the eviction witness: budget 10 bytes, one 10-byte
`collections` entry, `main` empty. -/
def c1store : Store String :=
  { maxSize := 10
    currentSize := 10
    lastUsed := [("collections", 1)]
    state := [("main", none), ("collections", some "0123456789")]
    lastLoadTime := [("collections", 1)]
    cacheMaxAge := 3600000
    transientStore := some ⟨[("spa-cache-collections", "0123456789")], []⟩ }

/-- Store fixture for the TTL witness: one `main` entry loaded at time 5,
max age 100. -/
def c2store : Store String :=
  { maxSize := 5242880
    currentSize := 1
    lastUsed := [("main", 5)]
    state := [("main", some "x")]
    lastLoadTime := [("main", 5)]
    cacheMaxAge := 100
    transientStore := some ⟨[("spa-cache-main", "x")], []⟩ }

/-- Store fixture for the byte-budget counterexample: budget 10 bytes,
empty cache, working storage. -/
def c5store : Store String :=
  { maxSize := 10
    currentSize := 0
    lastUsed := []
    state := [("main", none)]
    lastLoadTime := []
    cacheMaxAge := 3600000
    transientStore := some ⟨[], []⟩ }

/-- A 20-byte payload (ASCII). -/
def bigPayload : String := "aaaaaaaaaaaaaaaaaaaa"

/-- Store fixture for the quota-failure counterexample: no previous entry
for `main`, ample budget, storage whose next two `setItem` calls throw
`QuotaExceededError`. -/
def c6store : Store String :=
  { maxSize := 1000
    currentSize := 0
    lastUsed := []
    state := [("main", none)]
    lastLoadTime := []
    cacheMaxAge := 3600000
    transientStore := some ⟨[], [.quotaError, .quotaError]⟩ }

/-- Variant of the quota fixture whose retry succeeds: the first `setItem`
throws `QuotaExceededError` and the second succeeds. -/
def c6store2 : Store String :=
  { maxSize := 1000
    currentSize := 0
    lastUsed := []
    state := [("main", none)]
    lastLoadTime := []
    cacheMaxAge := 3600000
    transientStore := some ⟨[], [.quotaError, .success]⟩ }

/-- Store fixture for the `get` timestamp counterexample: a `main` entry
present in memory with `lastLoadTime = 5`. -/
def c8store : Store String :=
  { maxSize := 5242880
    currentSize := 1
    lastUsed := [("main", 5)]
    state := [("main", some "x")]
    lastLoadTime := [("main", 5)]
    cacheMaxAge := 3600000
    transientStore := some ⟨[("spa-cache-main", "x")], []⟩ }

/-- Loader dependencies for the retry witnesses: `main-content` present,
store injected, no preloader, identity validator. -/
def demoCfg : DLConfig String :=
  { mainContentPresent := true
    storePresent := true
    preloaderPresent := false
    validate := fun _ d => some d
    truthy := fun _ => true }

/-- Cache-miss oracle. -/
def missOracle : StoreOracle String :=
  { has1 := false, has2 := false, cached := none }

/-- An attempt whose fetch fails with a network error, signal never aborted. -/
def failEnv : AttemptEnv String :=
  { abortedAtStart := false, fetch := .networkError, abortedAfterFetch := false
    abortedAfterJson := false, abortedBeforeDelay := false, abortedAfterDelay := false }

/-- An attempt whose fetch rejects with `AbortError` (signal fired
mid-flight). -/
def abortEnv : AttemptEnv String :=
  { abortedAtStart := false, fetch := .abortRejected, abortedAfterFetch := false
    abortedAfterJson := false, abortedBeforeDelay := false, abortedAfterDelay := false }

/-- A URL-parse oracle for the `escapeURL` witness: recognizes one https URL
and one `javascript:` URL. -/
def demoParseURL : String → Option URLRec := fun s =>
  if s = "https://example.com/a" then some ⟨"https:", "https://example.com/a"⟩
  else if s = "javascript:alert(1)" then some ⟨"javascript:", "javascript:alert(1)"⟩
  else none

/-- The C7 example scenario: navigate to `main`, navigate to `collections`
before `main`'s load resolves, then both loads resolve (the superseded
`main` one last). -/
def c7scenario : List NavEvent :=
  [.nav "main", .nav "collections", .res "collections" 1, .res "main" 0]

/-- The stored string for a key, when `sessionStorage` is available. -/
def storGetI {Data : Type} (st : Store Data) (k : String) : Option String :=
  match st.transientStore with
  | some storage => storage.getItem k
  | none => none

/-- The `setItem` outcome schedule of the store's `sessionStorage`. -/
def storOutcomes {Data : Type} (st : Store Data) : Option (List SetOutcome) :=
  match st.transientStore with
  | some storage => some storage.outcomes
  | none => none

/-- Total byte size of the stored items of a list of routes. -/
def sumSz (storage : JsStorage) (l : List String) : Nat :=
  (l.map (fun r =>
    match storage.getItem (cacheKey r) with
    | some c => blobSize c
    | none => 0)).sum

/-! ## Helper lemmas -/

theorem alookup_isSome_iff_mem {β : Type _} (k : String) (l : List (String × β)) :
    (alookup k l).isSome ↔ k ∈ l.map Prod.fst := by
  induction l with
  | nil => simp [alookup]
  | cons p rest ih =>
    obtain ⟨k', v'⟩ := p
    by_cases h : k' = k <;> simp [alookup, h, ih] <;> tauto

theorem validateList_length {α : Type _} (f : JSValue → Option α × List String)
    (xs : List JSValue) :
    (validateList f xs).1.length = xs.countP (fun v => (f v).1.isSome) := by
  induction xs with
  | nil => simp [validateList]
  | cons v rest ih =>
    by_cases h : (f v).1.isSome
    · obtain ⟨a, ha⟩ := Option.isSome_iff_exists.mp h
      simp [validateList, List.countP_cons, ha, ih, h]
    · rw [Option.not_isSome_iff_eq_none] at h
      simp [validateList, List.countP_cons, h, ih]

theorem validateMapIdx_length {α : Type _} (f : Nat → JSValue → α × List String) :
    ∀ (i : Nat) (xs : List JSValue), (validateMapIdx f i xs).1.length = xs.length := by
  intro i xs
  induction xs generalizing i with
  | nil => simp [validateMapIdx]
  | cons v rest ih => simp [validateMapIdx, ih]

theorem mapIfNonEmpty_length {α : Type _} (f : Nat → JSValue → α × List String)
    (xs : List JSValue) : (mapIfNonEmpty f xs).1.length = xs.length := by
  by_cases h : xs.length > 0
  · simp [mapIfNonEmpty, h, validateMapIdx_length]
  · simp at h
    simp [mapIfNonEmpty, h]

theorem validatePost_isSome (p : JSValue) :
    (validatePost p).1.isSome = jsObjectLike p := by
  by_cases h : jsObjectLike p <;> simp [validatePost, h]

theorem validateCollection_isSome (c : JSValue) :
    (validateCollection c).1.isSome = jsObjectLike c := by
  by_cases h : jsObjectLike c <;> simp [validateCollection, h]

theorem validateGroup_isSome (g : JSValue) (k : GroupKind) :
    (validateGroup g k).1.isSome = jsObjectLike g := by
  by_cases h : jsObjectLike g
  · cases k <;> simp [validateGroup, h]
  · simp [validateGroup, h]

theorem validateHistoryEntry_isSome (e : JSValue) :
    (validateHistoryEntry e).1.isSome = jsObjectLike e := by
  by_cases h : jsObjectLike e <;> simp [validateHistoryEntry, h]

/-! ## Claims about DataValidator -/

/-- C9 counterexample. The claim says arrays inside a payload are filtered so
that unparseable entries are *dropped*. For `validateAbout`, a timeline entry
that is not an object is replaced by the default record `{date:'', event:''}`
rather than dropped: the payload `{timeline: [5]}` validates to a timeline of
length 1 containing the default item, not to an empty timeline. -/
theorem C9_counterexample :
    ((validateAboutRun (.obj [("timeline", .arr [.num 5])])).1.map
      (fun r => r.timeline)) = some [⟨"", ""⟩] := by
  rfl

/-- C9 (amended): every top-level `DataValidator` method is a total function
(never throws) returning `none` exactly when the top-level payload fails the
`!data || typeof data !== 'object'` guard, i.e. is not an object; the
*top-level* payload arrays (`posts`, `collections`, `groups`, `entries`) are
filtered so that non-object entries are dropped (the validated list's length
is the count of object-like raw entries); the `validateAbout` sub-arrays
instead substitute default records for unparseable entries (the validated
timeline has the same length as the raw one). -/
theorem C9_validators_amended (data : JSValue) :
    ((validateMainRun data).1 = none ↔ jsObjectLike data = false) ∧
    ((validateCollectionsRun data).1 = none ↔ jsObjectLike data = false) ∧
    ((validateScreenshotsRun data).1 = none ↔ jsObjectLike data = false) ∧
    ((validateVideosRun data).1 = none ↔ jsObjectLike data = false) ∧
    ((validateHistoryRun data).1 = none ↔ jsObjectLike data = false) ∧
    ((validateAboutRun data).1 = none ↔ jsObjectLike data = false) ∧
    (∀ r, (validateMainRun data).1 = some r →
      r.posts.length = (payloadArr data "posts").countP (fun v => jsObjectLike v)) ∧
    (∀ r, (validateCollectionsRun data).1 = some r →
      r.collections.length =
        (payloadArr data "collections").countP (fun v => jsObjectLike v)) ∧
    (∀ r, (validateScreenshotsRun data).1 = some r →
      r.groups.length = (payloadArr data "groups").countP (fun v => jsObjectLike v)) ∧
    (∀ r, (validateVideosRun data).1 = some r →
      r.groups.length = (payloadArr data "groups").countP (fun v => jsObjectLike v)) ∧
    (∀ r, (validateHistoryRun data).1 = some r →
      r.entries.length = (payloadArr data "entries").countP (fun v => jsObjectLike v)) ∧
    (∀ r, (validateAboutRun data).1 = some r →
      r.timeline.length = (payloadArr data "timeline").length) := by
  by_cases h : jsObjectLike data
  · refine ⟨by simp [validateMainRun, h], by simp [validateCollectionsRun, h],
      by simp [validateScreenshotsRun, h], by simp [validateVideosRun, h],
      by simp [validateHistoryRun, h], by simp [validateAboutRun, h],
      ?_, ?_, ?_, ?_, ?_, ?_⟩
    · intro r hr
      simp [validateMainRun, h] at hr
      subst hr
      simp [validateList_length, payloadArr]
      exact List.countP_congr (fun v _ => by simp [validatePost_isSome])
    · intro r hr
      simp [validateCollectionsRun, h] at hr
      subst hr
      simp [validateList_length, payloadArr]
      exact List.countP_congr (fun v _ => by simp [validateCollection_isSome])
    · intro r hr
      simp [validateScreenshotsRun, h] at hr
      subst hr
      simp [validateList_length, payloadArr]
      exact List.countP_congr (fun v _ => by simp [validateGroup_isSome])
    · intro r hr
      simp [validateVideosRun, h] at hr
      subst hr
      simp [validateList_length, payloadArr]
      exact List.countP_congr (fun v _ => by simp [validateGroup_isSome])
    · intro r hr
      simp [validateHistoryRun, h] at hr
      subst hr
      simp [validateList_length, payloadArr]
      exact List.countP_congr (fun v _ => by simp [validateHistoryEntry_isSome])
    · intro r hr
      simp [validateAboutRun, h] at hr
      subst hr
      simp [mapIfNonEmpty_length, payloadArr]
  · simp only [Bool.not_eq_true] at h
    refine ⟨by simp [validateMainRun, h], by simp [validateCollectionsRun, h],
      by simp [validateScreenshotsRun, h], by simp [validateVideosRun, h],
      by simp [validateHistoryRun, h], by simp [validateAboutRun, h],
      ?_, ?_, ?_, ?_, ?_, ?_⟩ <;>
      intro r hr <;> simp [validateMainRun, validateCollectionsRun,
        validateScreenshotsRun, validateVideosRun, validateHistoryRun,
        validateAboutRun, h] at hr

/-- C9 witness: the amended theorem applied to the concrete payload
`{posts: [1, {}]}` — the non-object post `1` is dropped and only the
object-like entry is counted. -/
theorem C9_validators_amended_witness :
    ((validateMainRun (.obj [("posts", .arr [.num 1, .obj []])])).1.map
      (fun r => r.posts.length)) =
      some ((payloadArr (.obj [("posts", .arr [.num 1, .obj []])]) "posts").countP
        (fun v => jsObjectLike v)) := by
  have h := (C9_validators_amended (.obj [("posts", .arr [.num 1, .obj []])])).2.2.2.2.2.2.1
  cases heq : (validateMainRun (.obj [("posts", .arr [.num 1, .obj []])])).1 with
  | none =>
    have := (C9_validators_amended (.obj [("posts", .arr [.num 1, .obj []])])).1.mp heq
    simp [jsObjectLike, jsTruthy, jsTypeof] at this
  | some r => simp [h r heq]

/-! ## Claim about `Page.escapeURL` -/

/-- C10: `escapeURL` returns a non-empty string only when the input is a
string that the `URL` constructor parses to a record whose protocol is in the
allowlist `[http:, https:, mailto:, tel:]` (and then it returns
`parsed.href`); every `javascript:` or `data:` URL, every non-string value,
every unparseable string and every string with a protocol outside the
allowlist yields the empty string. The embedding is a total function, so no
input can make it throw. -/
theorem C10_escapeURL_allowlist (parseURL : String → Option URLRec) :
    (∀ v : JSValue, escapeURL parseURL v ≠ "" →
      ∃ s parsed, v = .str s ∧ parseURL s = some parsed ∧
        parsed.protocol ∈ allowedProtocols ∧
        escapeURL parseURL v = parsed.href) ∧
    (∀ s parsed, parseURL s = some parsed →
      (parsed.protocol = "javascript:" ∨ parsed.protocol = "data:") →
      escapeURL parseURL (.str s) = "") ∧
    (∀ v : JSValue, (∀ s, v ≠ .str s) → escapeURL parseURL v = "") ∧
    (∀ s, parseURL s = none → escapeURL parseURL (.str s) = "") ∧
    (∀ s parsed, parseURL s = some parsed → parsed.protocol ∉ allowedProtocols →
      escapeURL parseURL (.str s) = "") := by
  refine ⟨?_, ?_, ?_, ?_, ?_⟩
  · intro v hv
    match v with
    | .str s =>
      by_cases hs : s = ""
      · simp [escapeURL, hs] at hv
      · cases hp : parseURL s with
        | none => simp [escapeURL, hs, hp] at hv
        | some parsed =>
          by_cases hall : parsed.protocol ∈ allowedProtocols
          · exact ⟨s, parsed, rfl, hp, hall, by simp [escapeURL, hs, hp, hall]⟩
          · simp [escapeURL, hs, hp, hall] at hv
    | .undefined => simp [escapeURL] at hv
    | .null => simp [escapeURL] at hv
    | .bool b => simp [escapeURL] at hv
    | .num n => simp [escapeURL] at hv
    | .arr xs => simp [escapeURL] at hv
    | .obj fs => simp [escapeURL] at hv
  · intro s parsed hp hbad
    by_cases hs : s = ""
    · simp [escapeURL, hs]
    · have hall : parsed.protocol ∉ allowedProtocols := by
        rcases hbad with h | h <;> simp [allowedProtocols, h]
      simp [escapeURL, hs, hp, hall]
  · intro v hv
    match v with
    | .str s => exact absurd rfl (hv s)
    | .undefined => simp [escapeURL]
    | .null => simp [escapeURL]
    | .bool b => simp [escapeURL]
    | .num n => simp [escapeURL]
    | .arr xs => simp [escapeURL]
    | .obj fs => simp [escapeURL]
  · intro s hp
    by_cases hs : s = "" <;> simp [escapeURL, hs, hp]
  · intro s parsed hp hall
    by_cases hs : s = ""
    · simp [escapeURL, hs]
    · simp [escapeURL, hs, hp, hall]

/-- C10 witness: the allowlist theorem applied to the concrete parse oracle
`demoParseURL` — a `javascript:` URL and a non-string are both mapped to the
empty string. -/
theorem C10_escapeURL_allowlist_witness :
    escapeURL demoParseURL (.str "javascript:alert(1)") = "" ∧
    escapeURL demoParseURL (.num 5) = "" := by
  constructor
  · exact (C10_escapeURL_allowlist demoParseURL).2.1 "javascript:alert(1)"
      ⟨"javascript:", "javascript:alert(1)"⟩ rfl (Or.inl rfl)
  · exact (C10_escapeURL_allowlist demoParseURL).2.2.1 (.num 5) (fun s h => by cases h)

/-! ## Claim about router navigation (C7) -/

theorem navInv_init : NavInv NavState.init := by
  refine ⟨?_, ?_, ?_⟩ <;> simp [NavState.init]

theorem navInv_navigate (s : NavState) (r : String) (h : NavInv s) :
    NavInv (navigate s r) := by
  obtain ⟨hp, ha, hc⟩ := h
  refine ⟨?_, ?_, ?_⟩
  · intro p hpmem
    simp only [navigate, List.mem_append, List.mem_singleton] at hpmem
    rcases hpmem with hpold | hpnew
    · rcases hp p hpold with hcur | hab
      · cases hcurs : s.current with
        | none => rw [hcurs] at hcur; cases hcur
        | some c =>
          rw [hcurs] at hcur
          right
          simp [navigate, hcurs]
          left
          exact (Option.some_inj.mp hcur).symm
      · right
        cases hcurs : s.current <;> simp [navigate, hcurs, hab]
    · left
      simp [navigate, hpnew]
  · intro i hi
    simp only [navigate] at hi
    cases hcurs : s.current with
    | none =>
      rw [hcurs] at hi
      have := ha i hi
      simp [navigate]
      omega
    | some c =>
      rw [hcurs] at hi
      simp only [List.mem_cons] at hi
      simp only [navigate]
      rcases hi with hic | hia
      · have := (hc c hcurs).1
        omega
      · have := ha i hia
        omega
  · intro c hcc
    simp only [navigate, Option.some_inj] at hcc
    subst hcc
    constructor
    · simp [navigate]
    · simp only [navigate]
      intro hmem
      cases hcurs : s.current with
      | none =>
        rw [hcurs] at hmem
        have := ha _ hmem
        omega
      | some c₀ =>
        rw [hcurs] at hmem
        simp only [List.mem_cons] at hmem
        rcases hmem with h1 | h2
        · have := (hc c₀ hcurs).1
          omega
        · have := ha _ h2
          omega

theorem navInv_resolve (s : NavState) (r : String) (i : Nat) (h : NavInv s) :
    NavInv (resolveLoad s r i) := by
  obtain ⟨hp, ha, hc⟩ := h
  by_cases hab : i ∈ s.aborted
  · refine ⟨?_, ?_, ?_⟩ <;> simp only [resolveLoad, if_pos hab]
    · intro p hpmem
      exact hp p (List.mem_of_mem_erase hpmem)
    · exact ha
    · exact hc
  · refine ⟨?_, ?_, ?_⟩ <;> simp only [resolveLoad, if_neg hab]
    · intro p hpmem
      exact hp p (List.mem_of_mem_erase hpmem)
    · exact ha
    · exact hc

theorem navInv_run (evs : List NavEvent) : NavInv (navRun evs) := by
  suffices h : ∀ (s : NavState), NavInv s → NavInv (evs.foldl navStep s) from
    h NavState.init navInv_init
  induction evs with
  | nil => intro s hs; exact hs
  | cons ev rest ih =>
    intro s hs
    refine ih (navStep s ev) ?_
    cases ev with
    | nav r => exact navInv_navigate s r hs
    | res r i => exact navInv_resolve s r i hs

/-- C7: at most one page load is current at a time. On every navigation the
router aborts the previous abort controller before starting the new load on
a fresh, unaborted controller; in every reachable state the signal of any
pending load other than the current one is aborted, so resolving a
superseded load leaves the rendered content unchanged (`Page.load` returns
before rendering when its signal is aborted); in particular, in the
main-then-collections scenario, `collections` is rendered and `main`'s
late-arriving result does not overwrite it. -/
theorem C7_navigation_race_guard :
    (∀ (s : NavState) (route : String) (c : Nat), s.current = some c →
      c ∈ (navigate s route).aborted) ∧
    (∀ (s : NavState) (route : String), (navigate s route).current = some s.nextId ∧
      (NavInv s → s.nextId ∉ (navigate s route).aborted)) ∧
    (∀ evs : List NavEvent, NavInv (navRun evs)) ∧
    (∀ (evs : List NavEvent) (r : String) (i : Nat),
      (r, i) ∈ (navRun evs).pending → (navRun evs).current ≠ some i →
      (resolveLoad (navRun evs) r i).rendered = (navRun evs).rendered) ∧
    ((navRun c7scenario).rendered = some "collections" ∧
      (navRun (List.take 3 c7scenario)).rendered = some "collections") := by
  refine ⟨?_, ?_, navInv_run, ?_, by decide⟩
  · intro s route c hc
    simp [navigate, hc]
  · intro s route
    constructor
    · simp [navigate]
    · intro hinv hmem
      obtain ⟨_, ha, hc⟩ := hinv
      simp only [navigate] at hmem
      cases hcurs : s.current with
      | none =>
        rw [hcurs] at hmem
        have := ha _ hmem
        omega
      | some c₀ =>
        rw [hcurs] at hmem
        simp only [List.mem_cons] at hmem
        rcases hmem with h1 | h2
        · have := (hc c₀ hcurs).1
          omega
        · have := ha _ h2
          omega
  · intro evs r i hpend hcur
    have hinv := navInv_run evs
    rcases hinv.1 (r, i) hpend with h1 | h2
    · exact absurd h1 hcur
    · simp [resolveLoad, h2]

/-- C7 witness: the race-guard theorem applied to the concrete scenario —
after the second navigation, resolving the superseded `main` load (signal 0)
leaves the rendered content unchanged. -/
theorem C7_navigation_race_guard_witness :
    (resolveLoad (navRun (List.take 3 c7scenario)) "main" 0).rendered =
      (navRun (List.take 3 c7scenario)).rendered := by
  exact C7_navigation_race_guard.2.2.2.1 (List.take 3 c7scenario) "main" 0
    (by decide) (by decide)

/-! ## Claims about `Store.has` / `Store.get` (C2, C8) -/

theorem getRun_clearRoute_none {Data : Type} (ops : DataOps Data) (st : Store Data)
    (route : String) (now2 : Nat) (hkey : (alookup route st.state).isSome) :
    (Store.getRun ops (st.clearRoute route) route now2).1 = none := by
  obtain ⟨v, heq⟩ := Option.isSome_iff_exists.mp hkey
  cases hts : st.transientStore with
  | none =>
    simp only [Store.clearRoute, heq, hts]
    simp only [Store.getRun, alookup_aset_self]
    simp [Store.getFromStorage]
  | some storage =>
    simp only [Store.clearRoute, heq, hts]
    simp only [Store.getRun, alookup_aset_self]
    simp [Store.getFromStorage, JsStorage.getItem, JsStorage.removeItem,
      alookup_aerase_self]

theorem entry_exists_of_guard {Data : Type} (st : Store Data) (route : String)
    (h : ¬(((!(match alookup route st.state with
          | some (some _) => true
          | _ => false)) &&
        (!(match st.transientStore with
          | some storage => (storage.getItem (cacheKey route)).isSome
          | none => false))) = true)) :
    (∃ d, alookup route st.state = some (some d)) ∨
    (∃ storage, st.transientStore = some storage ∧
      (storage.getItem (cacheKey route)).isSome) := by
  cases hsv : alookup route st.state with
  | some v =>
    cases v with
    | some d => exact Or.inl ⟨d, rfl⟩
    | none =>
      cases hts : st.transientStore with
      | none =>
        rw [hsv, hts] at h
        simp at h
      | some storage =>
        cases hgi : (storage.getItem (cacheKey route)).isSome with
        | false =>
          rw [hsv, hts] at h
          simp only [hgi] at h
          simp at h
        | true => exact Or.inr ⟨storage, rfl, hgi⟩
  | none =>
    cases hts : st.transientStore with
    | none =>
      rw [hsv, hts] at h
      simp at h
    | some storage =>
      cases hgi : (storage.getItem (cacheKey route)).isSome with
      | false =>
        rw [hsv, hts] at h
        simp only [hgi] at h
        simp at h
      | true => exact Or.inr ⟨storage, rfl, hgi⟩

/-- C2: `Store.has(route)` returns `true` only when an entry exists in
memory or in `sessionStorage` *and* its `lastLoadTime` is set and within
`cacheMaxAge` of now; when an entry exists but is older than the max age,
`has` evicts it (`clear(route)`) as a side effect and returns `false`, and a
subsequent `get` returns `null` instead of the stale payload. The
constructor's default max age is one hour (3600000 ms). -/
theorem C2_has_ttl {Data : Type} (ops : DataOps Data) (st : Store Data)
    (route : String) (now now2 : Nat) :
    ((Store.hasRun st route now).1 = true →
      ((∃ d, alookup route st.state = some (some d)) ∨
        (∃ storage, st.transientStore = some storage ∧
          (storage.getItem (cacheKey route)).isSome)) ∧
      ∃ t, alookup route st.lastLoadTime = some t ∧ t ≠ 0 ∧
        (now : Int) - (t : Int) ≤ (st.cacheMaxAge : Int)) ∧
    (∀ t, (alookup route st.state).isSome →
      alookup route st.lastLoadTime = some t → t ≠ 0 →
      (now : Int) - (t : Int) > (st.cacheMaxAge : Int) →
      ((∃ d, alookup route st.state = some (some d)) ∨
        (∃ storage, st.transientStore = some storage ∧
          (storage.getItem (cacheKey route)).isSome)) →
      (Store.hasRun st route now).1 = false ∧
      (Store.hasRun st route now).2 = st.clearRoute route ∧
      (Store.getRun ops (Store.hasRun st route now).2 route now2).1 = none) ∧
    initCacheMaxAge none = 3600000 := by
  refine ⟨?_, ?_, by decide⟩
  · intro htrue
    simp only [Store.hasRun] at htrue
    split at htrue
    · simp at htrue
    · next hguard =>
      refine ⟨entry_exists_of_guard st route hguard, ?_⟩
      split at htrue
      · next hll =>
        split at htrue
        · simp at htrue
        · next hage =>
          cases hleq : alookup route st.lastLoadTime with
          | none =>
            rw [hleq] at hll
            simp at hll
          | some t =>
            rw [hleq] at hll hage
            simp only [Option.getD_some] at hll hage
            exact ⟨t, rfl, hll, by omega⟩
      · next hll =>
        split at htrue
        · split at htrue
          · simp at htrue
          · next h0 =>
            rw [not_not] at hll
            exact absurd hll h0
        · simp at htrue
  · intro t hkey hleq ht0 hage hex
    obtain ⟨v, hv⟩ := Option.isSome_iff_exists.mp hkey
    have h1 : Store.hasRun st route now = (false, st.clearRoute route) := by
      cases v with
      | some d =>
        simp only [Store.hasRun, hv, hleq, Option.getD_some]
        rw [if_neg (by simp)]
        rw [if_pos ht0, if_pos hage]
      | none =>
        rcases hex with ⟨d, hd⟩ | ⟨storage, hs, hsi⟩
        · rw [hv] at hd
          simp at hd
        · simp only [Store.hasRun, hv, hs, hsi, hleq, Option.getD_some]
          rw [if_neg (by simp [hsi])]
          rw [if_pos ht0, if_pos hage]
    rw [h1]
    exact ⟨rfl, rfl, getRun_clearRoute_none ops st route now2 hkey⟩

/-- C2 witness: the TTL theorem applied to the concrete store `c2store`
(entry loaded at time 5, max age 100) at time 200 — `has` reports `false`
and the subsequent `get` no longer sees the stale payload. -/
theorem C2_has_ttl_witness :
    (Store.hasRun c2store "main" 200).1 = false ∧
    (Store.getRun demoOps (Store.hasRun c2store "main" 200).2 "main" 201).1 = none := by
  have h := (C2_has_ttl demoOps c2store "main" 200 201).2.1 5 (by decide) rfl
    (by decide) (by decide) (Or.inl ⟨"x", rfl⟩)
  exact ⟨h.1, h.2.2⟩

/-- C8 counterexample. The claim says `get` updates *both* the last-used and
the last-loaded timestamps on every hit. On an in-memory hit the code updates
only `lastUsed`: reading `main` (loaded at time 5) at time 100 leaves
`lastLoadTime` at 5. -/
theorem C8_counterexample :
    (Store.getRun demoOps c8store "main" 100).1 = some "x" ∧
    alookup "main" (Store.getRun demoOps c8store "main" 100).2.lastUsed = some 100 ∧
    alookup "main" (Store.getRun demoOps c8store "main" 100).2.lastLoadTime = some 5 ∧
    ¬alookup "main" (Store.getRun demoOps c8store "main" 100).2.lastLoadTime = some 100 := by
  exact ⟨rfl, by decide, by decide, by decide⟩

/-- C8 (amended): `Store.get` returns the in-memory entry when present and
truthy, updating only the last-used timestamp; otherwise it restores from the
session-scoped persisted backing store, where absence or a parse failure
yields `null` without any mutation, and a successful restore mirrors the
entry into memory, updates last-used, and sets last-loaded only when it was
previously unset. -/
theorem C8_get_amended {Data : Type} (ops : DataOps Data) (st : Store Data)
    (route : String) (now : Nat) :
    (∀ d, alookup route st.state = some (some d) → ops.truthy d = true →
      Store.getRun ops st route now =
        (some d, { st with lastUsed := aset route now st.lastUsed })) ∧
    ((∀ d, alookup route st.state = some (some d) → ops.truthy d = false) →
      ((st.transientStore = none → Store.getRun ops st route now = (none, st)) ∧
       (∀ storage, st.transientStore = some storage →
         (storage.getItem (cacheKey route) = none →
           Store.getRun ops st route now = (none, st)) ∧
         (∀ c, storage.getItem (cacheKey route) = some c → ops.parse c = none →
           Store.getRun ops st route now = (none, st)) ∧
         (∀ c d, storage.getItem (cacheKey route) = some c → ops.parse c = some d →
           (Store.getRun ops st route now).1 = some d ∧
           alookup route (Store.getRun ops st route now).2.state = some (some d) ∧
           alookup route (Store.getRun ops st route now).2.lastUsed = some now ∧
           ((alookup route st.lastLoadTime).getD 0 = 0 →
             alookup route (Store.getRun ops st route now).2.lastLoadTime = some now) ∧
           (∀ t, alookup route st.lastLoadTime = some t → t ≠ 0 →
             alookup route (Store.getRun ops st route now).2.lastLoadTime = some t))))) := by
  constructor
  · intro d hd htr
    simp [Store.getRun, hd, htr]
  · intro hfalsy
    have hbranch : Store.getRun ops st route now =
        Store.getFromStorage ops st route now := by
      cases hsv : alookup route st.state with
      | some v =>
        cases v with
        | some d =>
          have := hfalsy d hsv
          simp [Store.getRun, hsv, this]
        | none => simp [Store.getRun, hsv]
      | none => simp [Store.getRun, hsv]
    rw [hbranch]
    constructor
    · intro hts
      simp [Store.getFromStorage, hts]
    · intro storage hts
      refine ⟨?_, ?_, ?_⟩
      · intro hgi
        simp [Store.getFromStorage, hts, hgi]
      · intro c hgi hparse
        simp [Store.getFromStorage, hts, hgi, hparse]
      · intro c d hgi hparse
        by_cases hlu : (alookup route st.lastUsed).getD 0 = 0 <;>
          by_cases hllt : (alookup route st.lastLoadTime).getD 0 = 0 <;>
          refine ⟨?_, ?_, ?_, ?_, ?_⟩ <;>
          simp [Store.getFromStorage, hts, hgi, hparse, hlu, hllt,
            alookup_aset_self] <;>
          intro t hleq ht0 <;>
          rw [hleq] at hllt <;>
          simp only [Option.getD_some] at hllt <;>
          first
          | exact absurd hllt ht0
          | simp [hleq]

/-- C8 witness: the amended theorem applied to the concrete store `c8store`
— an in-memory hit returns the payload and bumps only `lastUsed`. -/
theorem C8_get_amended_witness :
    Store.getRun demoOps c8store "main" 100 =
      (some "x", { c8store with lastUsed := aset "main" 100 c8store.lastUsed }) := by
  exact (C8_get_amended demoOps c8store "main" 100).1 "x" rfl rfl

/-! ## Claims about `DataLoader.loadJSON` (C3, C4) -/

theorem attemptLoad_events_shape {Data : Type} (cfg : DLConfig Data)
    (env : AttemptEnv Data) (path : String) (route : Option String) (w : Bool) :
    (attemptLoad cfg env path route w).2 = [] ∨
    (attemptLoad cfg env path route w).2 = [DLEvent.fetchStarted] ∨
    ∃ d, (attemptLoad cfg env path route w).1 = Except.ok d := by
  unfold attemptLoad
  repeat' split
  all_goals
    first
    | (left; rfl)
    | (right; left; rfl)
    | (right; right; exact ⟨_, rfl⟩)

theorem attemptLoad_error_trace {Data : Type} (cfg : DLConfig Data)
    (env : AttemptEnv Data) (path : String) (route : Option String) (w : Bool)
    (e : LoadErr) (h : (attemptLoad cfg env path route w).1 = .error e) :
    hasStoreSet (attemptLoad cfg env path route w).2 = false ∧
    countFetch (attemptLoad cfg env path route w).2 ≤ 1 ∧
    delaysOf (attemptLoad cfg env path route w).2 = [] := by
  rcases attemptLoad_events_shape cfg env path route w with h1 | h1 | ⟨d, h1⟩
  · simp [h1, hasStoreSet, countFetch, delaysOf]
  · simp [h1, hasStoreSet, countFetch, delaysOf]
  · rw [h] at h1
    cases h1

theorem loadLoop_all_fail {Data : Type} (cfg : DLConfig Data) (path : String)
    (route : Option String) (w : Bool) :
    ∀ (fuel i : Nat) (attempts : List (AttemptEnv Data)),
      attempts.length = fuel → 1 ≤ fuel →
      (∀ env ∈ attempts, env.abortedBeforeDelay = false ∧
        env.abortedAfterDelay = false ∧
        ∃ e, attemptLoad cfg env path route w = (.error e, [.fetchStarted]) ∧
          e.isAbort = false) →
      ∃ e evs envLast,
        loadLoop cfg path route w i fuel attempts = (.error e, evs) ∧
        attempts.getLast? = some envLast ∧
        (attemptLoad cfg envLast path route w).1 = .error e ∧
        delaysOf evs = (List.range (fuel - 1)).map (fun j => 1000 * (i + 1 + j)) ∧
        countFetch evs = fuel ∧ hasStoreSet evs = false := by
  intro fuel
  induction fuel with
  | zero => intro i attempts hlen h1; omega
  | succ f ih =>
    intro i attempts hlen _ hfail
    cases attempts with
    | nil => simp at hlen
    | cons env rest =>
      obtain ⟨hbd, had, e0, heq, hab⟩ := hfail env (List.mem_cons_self env rest)
      cases f with
      | zero =>
        have hrest : rest = [] := by
          cases rest with
          | nil => rfl
          | cons a b => simp at hlen
        subst hrest
        refine ⟨e0, [.fetchStarted], env, ?_, rfl, by rw [heq], by simp [delaysOf],
          by simp [countFetch], by simp [hasStoreSet]⟩
        simp [loadLoop, heq, hab]
      | succ f' =>
        have hrlen : rest.length = f' + 1 := by simpa using hlen
        have hfail' : ∀ env' ∈ rest, env'.abortedBeforeDelay = false ∧
            env'.abortedAfterDelay = false ∧
            ∃ e, attemptLoad cfg env' path route w = (.error e, [.fetchStarted]) ∧
              e.isAbort = false :=
          fun env' h' => hfail env' (List.mem_cons_of_mem env h')
        obtain ⟨e, evs', envLast, hL, hlast, herr, hdel, hcnt, hset⟩ :=
          ih (i + 1) rest hrlen (by omega) hfail'
        refine ⟨e, [DLEvent.fetchStarted] ++ DLEvent.delayed (1000 * (i + 1)) :: evs',
          envLast, ?_, ?_, herr, ?_, ?_, ?_⟩
        · simp only [loadLoop, heq, hab, hbd, had]
          simp [hL, hab, hbd, had]
        · cases rest with
          | nil => simp at hrlen
          | cons r rest'' => rw [List.getLast?_cons_cons]; exact hlast
        · simp only [delaysOf, List.filterMap_append, List.filterMap_cons]
          simp only [delaysOf] at hdel
          rw [hdel]
          simp only [List.filterMap_nil, List.nil_append]
          have h2 : f' + 1 + 1 - 1 = f' + 1 := rfl
          have hr : List.range (f' + 1) = 0 :: (List.range f').map Nat.succ :=
            List.range_succ_eq_map f'
          rw [h2, hr, List.map_cons, List.map_map]
          congr 1
          congr 1
          all_goals
            first
            | (funext j
               simp only [Function.comp]
               omega)
            | rfl
        · simp only [countFetch, List.countP_append, List.countP_cons] at hcnt ⊢
          simp [hcnt]
          omega
        · simp only [hasStoreSet, List.any_append, List.any_cons] at hset ⊢
          simp [hset]

/-- C4: on non-cancellation failures `loadJSON` makes up to `retries`
attempts (the JS default is `retries = 3`), waits `attempt-index × 1000` ms
before each retry (1000 ms before the first retry, 2000 ms before the
second), and after the configured attempt count is exhausted rethrows the
last attempt's error to the caller. -/
theorem C4_retry_backoff {Data : Type} (cfg : DLConfig Data)
    (oracle : StoreOracle Data) (path R : String) (retries : Nat)
    (attempts : List (AttemptEnv Data))
    (hpath : path ≠ "") (hroute : getRouteFromPath path = some R)
    (hmiss : oracle.has2 = false) (hlen : attempts.length = retries)
    (hret : 1 ≤ retries)
    (hfail : ∀ env ∈ attempts, env.abortedBeforeDelay = false ∧
      env.abortedAfterDelay = false ∧
      ∃ e, attemptLoad cfg env path (some R) (cfg.storePresent && oracle.has1) =
        (.error e, [.fetchStarted]) ∧ e.isAbort = false) :
    ∃ e evs envLast,
      loadJSON cfg oracle path false false retries attempts = (.error e, evs) ∧
      attempts.getLast? = some envLast ∧
      (attemptLoad cfg envLast path (some R)
        (cfg.storePresent && oracle.has1)).1 = .error e ∧
      delaysOf evs = (List.range (retries - 1)).map (fun j => 1000 * (1 + j)) ∧
      countFetch evs = retries := by
  obtain ⟨e, evs, envLast, hL, h2, h3, h4, h5, _⟩ :=
    loadLoop_all_fail cfg path (some R) (cfg.storePresent && oracle.has1)
      retries 0 attempts hlen hret hfail
  refine ⟨e, evs, envLast, ?_, h2, h3, ?_, h5⟩
  · simp only [loadJSON, if_neg hpath, hroute, hmiss, loadJSONNet,
      Bool.not_false, Option.isSome_some, Bool.true_and, Bool.and_true,
      Bool.and_false, Bool.false_and]
    simp only [if_neg (by simp : ¬(false = true))]
    simp [hL]
  · rw [h4]

/-- C4 witness: three network-failing attempts through the concrete loader
configuration — three fetches, delays of 1000 ms and 2000 ms, and a thrown
final error. -/
theorem C4_retry_backoff_witness :
    ∃ e evs, loadJSON demoCfg missOracle "data/main.json" false false 3
        [failEnv, failEnv, failEnv] = (.error e, evs) ∧
      delaysOf evs = [1000, 2000] ∧ countFetch evs = 3 := by
  obtain ⟨e, evs, envLast, hL, _, _, hdel, hcnt⟩ :=
    C4_retry_backoff demoCfg missOracle "data/main.json" "main" 3
      [failEnv, failEnv, failEnv] (by decide) rfl rfl rfl (by omega)
      (by
        intro env henv
        have hone : env = failEnv := by simpa using henv
        subst hone
        exact ⟨rfl, rfl, .networkError, rfl, rfl⟩)
  refine ⟨e, evs, hL, ?_, hcnt⟩
  rw [hdel]
  decide

theorem loadLoop_abort_mid {Data : Type} (cfg : DLConfig Data) (path : String)
    (route : Option String) (w : Bool) :
    ∀ (front : List (AttemptEnv Data)) (env : AttemptEnv Data)
      (rest : List (AttemptEnv Data)) (i fuel : Nat),
      front.length + 1 ≤ fuel →
      (∀ e' ∈ front, e'.abortedBeforeDelay = false ∧
        e'.abortedAfterDelay = false ∧
        ∃ er, attemptLoad cfg e' path route w = (.error er, [.fetchStarted]) ∧
          er.isAbort = false) →
      (attemptLoad cfg env path route w).1 = .error .abortError →
      ∃ evs, loadLoop cfg path route w i fuel (front ++ env :: rest) =
          (.error .abortError, evs) ∧
        hasStoreSet evs = false ∧ countFetch evs ≤ front.length + 1 ∧
        delaysOf evs = (List.range front.length).map (fun j => 1000 * (i + 1 + j)) := by
  intro front
  induction front with
  | nil =>
    intro env rest i fuel hle hfront habort
    match fuel, hle with
    | f + 1, _ =>
      obtain ⟨hset, hcnt, hdel⟩ := attemptLoad_error_trace cfg env path route w _ habort
      cases hAL : attemptLoad cfg env path route w with
      | mk res evs0 =>
        rw [hAL] at habort
        simp only at habort
        subst habort
        rw [hAL] at hset hcnt hdel
        simp only at hset hcnt hdel
        refine ⟨evs0, ?_, hset, by simpa using hcnt, by simpa using hdel⟩
        simp only [List.nil_append, loadLoop, hAL]
        simp [LoadErr.isAbort]
  | cons e' front' ih =>
    intro env rest i fuel hle hfront habort
    match fuel, hle with
    | f + 1, hle =>
      obtain ⟨hbd, had, er, heq, hab⟩ := hfront e' (List.mem_cons_self e' front')
      have hf : front'.length + 1 ≤ f := by
        simp only [List.length_cons] at hle
        omega
      obtain ⟨evs', hL, hset, hcnt, hdel⟩ := ih env rest (i + 1) f hf
        (fun x hx => hfront x (List.mem_cons_of_mem e' hx)) habort
      have hf0 : f ≠ 0 := by omega
      refine ⟨[DLEvent.fetchStarted] ++ DLEvent.delayed (1000 * (i + 1)) :: evs',
        ?_, ?_, ?_, ?_⟩
      · simp only [List.cons_append, loadLoop, heq]
        simp [hL, hab, hbd, had, hf0]
      · simp only [hasStoreSet, List.any_append, List.any_cons] at hset ⊢
        simp [hset]
      · simp only [countFetch, List.countP_append, List.countP_cons] at hcnt ⊢
        simp only [List.length_cons]
        simp
        omega
      · simp only [delaysOf, List.filterMap_append, List.filterMap_cons]
        simp only [delaysOf] at hdel
        rw [hdel]
        simp only [List.filterMap_nil, List.nil_append, List.length_cons]
        have hr : List.range (front'.length + 1) =
            0 :: (List.range front'.length).map Nat.succ :=
          List.range_succ_eq_map front'.length
        rw [hr, List.map_cons, List.map_map]
        congr 1
        congr 1
        funext j
        simp only [Function.comp]
        omega

/-- C3: cancellation aborts immediately. If the signal is already triggered
when `loadJSON` is called (on a valid path), it throws `AbortError` at once —
no fetch, no delay, no Store mutation. If the signal triggers mid-flight
during attempt `k` (earlier attempts having failed with ordinary errors),
`loadJSON` rethrows the `AbortError` immediately: no further attempt is
started (at most `k + 1` fetches), no backoff delay follows the aborted
attempt, and no `store.set` is recorded for the route. -/
theorem C3_cancellation {Data : Type} :
    (∀ (cfg : DLConfig Data) (oracle : StoreOracle Data) (path : String)
        (forceReload : Bool) (retries : Nat) (attempts : List (AttemptEnv Data)),
      path ≠ "" →
      loadJSON cfg oracle path forceReload true retries attempts =
        (.error .abortError, [])) ∧
    (∀ (cfg : DLConfig Data) (oracle : StoreOracle Data) (path R : String)
        (retries : Nat) (front : List (AttemptEnv Data)) (env : AttemptEnv Data)
        (rest : List (AttemptEnv Data)),
      path ≠ "" → getRouteFromPath path = some R → oracle.has2 = false →
      front.length + 1 ≤ retries →
      (∀ e' ∈ front, e'.abortedBeforeDelay = false ∧
        e'.abortedAfterDelay = false ∧
        ∃ er, attemptLoad cfg e' path (some R)
            (cfg.storePresent && oracle.has1) = (.error er, [.fetchStarted]) ∧
          er.isAbort = false) →
      (attemptLoad cfg env path (some R)
        (cfg.storePresent && oracle.has1)).1 = .error .abortError →
      ∃ evs, loadJSON cfg oracle path false false retries
          (front ++ env :: rest) = (.error .abortError, evs) ∧
        hasStoreSet evs = false ∧ countFetch evs ≤ front.length + 1 ∧
        delaysOf evs =
          (List.range front.length).map (fun j => 1000 * (1 + j))) := by
  constructor
  · intro cfg oracle path forceReload retries attempts hpath
    simp [loadJSON, hpath]
  · intro cfg oracle path R retries front env rest hpath hroute hmiss hlen
      hfront habort
    obtain ⟨evs, hL, hset, hcnt, hdel⟩ :=
      loadLoop_abort_mid cfg path (some R) (cfg.storePresent && oracle.has1)
        front env rest 0 retries hlen hfront habort
    refine ⟨evs, ?_, hset, hcnt, by rw [hdel]⟩
    simp only [loadJSON, if_neg hpath, hroute, hmiss, loadJSONNet,
      Bool.not_false, Option.isSome_some, Bool.true_and, Bool.and_true,
      Bool.and_false, Bool.false_and]
    simp only [if_neg (by simp : ¬(false = true))]
    simp [hL]

/-- C3 witness: the cancellation theorem applied to the concrete loader — an
already-triggered signal yields an immediate `AbortError` with an empty
trace, and a mid-flight abort on the second attempt stops after two fetches
with no Store mutation. -/
theorem C3_cancellation_witness :
    loadJSON demoCfg missOracle "data/main.json" false true 3
      [failEnv, failEnv, failEnv] = (.error .abortError, []) ∧
    ∃ evs, loadJSON demoCfg missOracle "data/main.json" false false 3
        [failEnv, abortEnv, failEnv] = (.error .abortError, evs) ∧
      hasStoreSet evs = false ∧ countFetch evs ≤ 2 ∧ delaysOf evs = [1000] := by
  constructor
  · exact (@C3_cancellation String).1 demoCfg missOracle
      "data/main.json" false 3 [failEnv, failEnv, failEnv] (by decide)
  · obtain ⟨evs, hL, hset, hcnt, hdel⟩ := (@C3_cancellation String).2
      demoCfg missOracle "data/main.json" "main" 3 [failEnv] abortEnv [failEnv]
      (by decide) rfl rfl (by simp)
      (by
        intro e' he'
        have hone : e' = failEnv := by simpa using he'
        subst hone
        exact ⟨rfl, rfl, .networkError, rfl, rfl⟩)
      rfl
    exact ⟨evs, hL, hset, by simpa using hcnt, by rw [hdel]; rfl⟩

/-! ## Claims about Store eviction and the byte budget (C1, C5, C6) -/

theorem cacheKey_inj {r r' : String} (h : cacheKey r = cacheKey r') : r = r' := by
  have hd : (cacheKey r).data = (cacheKey r').data := by rw [h]
  simp only [cacheKey, String.data_append] at hd
  have h2 : r.data = r'.data := List.append_cancel_left hd
  cases r with
  | mk rd =>
    cases r' with
    | mk rd' =>
      dsimp only at h2
      rw [h2]

theorem sumSz_congr (s1 s2 : JsStorage) (l : List String)
    (h : ∀ r ∈ l, s1.getItem (cacheKey r) = s2.getItem (cacheKey r)) :
    sumSz s1 l = sumSz s2 l := by
  induction l with
  | nil => rfl
  | cons r rest ih =>
    simp only [sumSz, List.map_cons, List.sum_cons] at ih ⊢
    rw [h r (List.mem_cons_self r rest),
      ih (fun x hx => h x (List.mem_cons_of_mem r hx))]

theorem mem_sortedEligible {Data : Type} (st : Store Data) (ex : Option String)
    (r : String) :
    r ∈ (sortedEligible st ex).map Prod.fst ↔
    ((match ex with
      | some e => r ≠ e
      | none => True) ∧
     (∃ d, alookup r st.state = some (some d)) ∧
     (alookup r st.lastUsed).isSome) := by
  have hperm : List.Perm (sortedEligible st ex) (eligibleEntries st ex) :=
    List.perm_insertionSort _ _
  rw [(hperm.map Prod.fst).mem_iff]
  simp only [eligibleEntries, List.map_map]
  rw [show (Prod.fst ∘ fun r : String => (r, (alookup r st.lastUsed).getD 0)) = id from
    funext fun x => rfl, List.map_id]
  rw [List.mem_filter]
  constructor
  · intro hmc
    obtain ⟨hmem, hcond⟩ := hmc
    simp only [Bool.and_eq_true, decide_eq_true_eq] at hcond
    obtain ⟨⟨hex, hstate⟩, hlu⟩ := hcond
    refine ⟨?_, ?_, hlu⟩
    · cases ex with
      | none => trivial
      | some e => simpa using hex
    · revert hstate
      match alookup r st.state with
      | some (some d) => exact fun _ => ⟨d, rfl⟩
      | some none => simp
      | none => simp
  · intro hmc
    obtain ⟨hex, ⟨d, hd⟩, hlu⟩ := hmc
    refine ⟨?_, ?_⟩
    · rw [← alookup_isSome_iff_mem]
      simp [hd]
    · simp only [Bool.and_eq_true, decide_eq_true_eq]
      refine ⟨⟨?_, by rw [hd]⟩, hlu⟩
      cases ex with
      | none => simp
      | some e => simpa using hex

theorem sortedEligible_nodup {Data : Type} (st : Store Data) (ex : Option String)
    (h : (st.state.map Prod.fst).Nodup) :
    ((sortedEligible st ex).map Prod.fst).Nodup := by
  have hperm : List.Perm (sortedEligible st ex) (eligibleEntries st ex) :=
    List.perm_insertionSort _ _
  rw [(hperm.map Prod.fst).nodup_iff]
  simp only [eligibleEntries, List.map_map]
  have hid : (Prod.fst ∘ fun r : String => (r, (alookup r st.lastUsed).getD 0)) = id := by
    funext x
    rfl
  rw [hid, List.map_id]
  exact h.filter _

theorem sortedEligible_sorted {Data : Type} (st : Store Data) (ex : Option String) :
    List.Sorted (fun a b : String × Nat => a.2 ≤ b.2) (sortedEligible st ex) := by
  haveI : IsTotal (String × Nat) (fun a b => a.2 ≤ b.2) :=
    ⟨fun a b => Nat.le_total a.2 b.2⟩
  haveI : IsTrans (String × Nat) (fun a b => a.2 ≤ b.2) :=
    ⟨fun _ _ _ h1 h2 => Nat.le_trans h1 h2⟩
  exact List.sorted_insertionSort _ _

theorem evictLoop_outside {Data : Type} (required : Nat) :
    ∀ (E : List String) (freed : Nat) (st : Store Data) (r : String), r ∉ E →
      alookup r (evictLoop required E freed st).state = alookup r st.state ∧
      alookup r (evictLoop required E freed st).lastUsed = alookup r st.lastUsed ∧
      alookup r (evictLoop required E freed st).lastLoadTime =
        alookup r st.lastLoadTime ∧
      storGetI (evictLoop required E freed st) (cacheKey r) =
        storGetI st (cacheKey r) := by
  intro E
  induction E with
  | nil =>
    intro freed st r _
    exact ⟨rfl, rfl, rfl, rfl⟩
  | cons r0 rest ih =>
    intro freed st r hr
    have hr0 : r ≠ r0 := fun h => hr (h ▸ List.mem_cons_self r0 rest)
    have hrr : r ∉ rest := fun h => hr (List.mem_cons_of_mem r0 h)
    by_cases hfr : freed ≥ required
    · have hstep : evictLoop required (r0 :: rest) freed st = st := by
        simp [evictLoop, hfr]
      rw [hstep]
      exact ⟨rfl, rfl, rfl, rfl⟩
    · cases hts : st.transientStore with
      | none =>
        have hstep : evictLoop required (r0 :: rest) freed st =
            evictLoop required rest freed st := by
          simp [evictLoop, hfr, hts]
        rw [hstep]
        exact ih freed st r hrr
      | some storage =>
        cases hgi : storage.getItem (cacheKey r0) with
        | none =>
          have hstep : evictLoop required (r0 :: rest) freed st =
              evictLoop required rest freed st := by
            simp [evictLoop, hfr, hts, hgi]
          rw [hstep]
          exact ih freed st r hrr
        | some cached =>
          by_cases hce : cached = ""
          · have hstep : evictLoop required (r0 :: rest) freed st =
                evictLoop required rest freed st := by
              simp [evictLoop, hfr, hts, hgi, hce]
            rw [hstep]
            exact ih freed st r hrr
          · have hstep : evictLoop required (r0 :: rest) freed st =
                evictLoop required rest (freed + blobSize cached)
                  { maxSize := st.maxSize
                    currentSize := st.currentSize - (blobSize cached : Int)
                    lastUsed := aerase r0 st.lastUsed
                    state := aset r0 none st.state
                    lastLoadTime := aerase r0 st.lastLoadTime
                    cacheMaxAge := st.cacheMaxAge
                    transientStore := some (storage.removeItem (cacheKey r0)) } := by
              simp [evictLoop, hfr, hts, hgi, hce]
            rw [hstep]
            obtain ⟨h1, h2, h3, h4⟩ := ih (freed + blobSize cached) _ r hrr
            refine ⟨?_, ?_, ?_, ?_⟩
            · rw [h1]
              exact alookup_aset_ne _ _ hr0
            · rw [h2]
              exact alookup_aerase_ne _ hr0
            · rw [h3]
              exact alookup_aerase_ne _ hr0
            · rw [h4]
              simp only [storGetI, hts, JsStorage.removeItem, JsStorage.getItem]
              exact alookup_aerase_ne _ (fun hck => hr0 (cacheKey_inj hck))

theorem evictLoop_global {Data : Type} (required : Nat) :
    ∀ (E : List String) (freed : Nat) (st : Store Data),
      storOutcomes (evictLoop required E freed st) = storOutcomes st ∧
      (evictLoop required E freed st).maxSize = st.maxSize ∧
      (evictLoop required E freed st).cacheMaxAge = st.cacheMaxAge ∧
      (evictLoop required E freed st).transientStore.isSome =
        st.transientStore.isSome := by
  intro E
  induction E with
  | nil =>
    intro freed st
    exact ⟨rfl, rfl, rfl, rfl⟩
  | cons r0 rest ih =>
    intro freed st
    by_cases hfr : freed ≥ required
    · have hstep : evictLoop required (r0 :: rest) freed st = st := by
        simp [evictLoop, hfr]
      rw [hstep]
      exact ⟨rfl, rfl, rfl, rfl⟩
    · cases hts : st.transientStore with
      | none =>
        have hstep : evictLoop required (r0 :: rest) freed st =
            evictLoop required rest freed st := by
          simp [evictLoop, hfr, hts]
        rw [hstep]
        have h := ih freed st
        rw [hts] at h
        exact h
      | some storage =>
        cases hgi : storage.getItem (cacheKey r0) with
        | none =>
          have hstep : evictLoop required (r0 :: rest) freed st =
              evictLoop required rest freed st := by
            simp [evictLoop, hfr, hts, hgi]
          rw [hstep]
          have h := ih freed st
          rw [hts] at h
          exact h
        | some cached =>
          by_cases hce : cached = ""
          · have hstep : evictLoop required (r0 :: rest) freed st =
                evictLoop required rest freed st := by
              simp [evictLoop, hfr, hts, hgi, hce]
            rw [hstep]
            have h := ih freed st
            rw [hts] at h
            exact h
          · have hstep : evictLoop required (r0 :: rest) freed st =
                evictLoop required rest (freed + blobSize cached)
                  { maxSize := st.maxSize
                    currentSize := st.currentSize - (blobSize cached : Int)
                    lastUsed := aerase r0 st.lastUsed
                    state := aset r0 none st.state
                    lastLoadTime := aerase r0 st.lastLoadTime
                    cacheMaxAge := st.cacheMaxAge
                    transientStore := some (storage.removeItem (cacheKey r0)) } := by
              simp [evictLoop, hfr, hts, hgi, hce]
            rw [hstep]
            obtain ⟨h1, h2, h3, h4⟩ := ih (freed + blobSize cached) _
            refine ⟨?_, h2, h3, ?_⟩
            · rw [h1]
              simp [storOutcomes, hts, JsStorage.removeItem]
            · rw [h4]
              simp [hts]

theorem evictLoop_budget {Data : Type} (required : Nat) :
    ∀ (E : List String) (freed : Nat) (st : Store Data) (storage : JsStorage),
      st.transientStore = some storage →
      E.Nodup →
      (∀ r ∈ E, (alookup r st.state).isSome) →
      (evictLoop required E freed st).state.map Prod.fst =
        st.state.map Prod.fst ∧
      ∃ fr, (evictLoop required E freed st).currentSize =
          st.currentSize - (fr : Int) ∧
        (freed + fr ≥ required ∨ fr = sumSz storage E) := by
  intro E
  induction E with
  | nil =>
    intro freed st storage hts hnd hkeys
    exact ⟨rfl, 0, by simp [evictLoop], Or.inr (by simp [sumSz])⟩
  | cons r0 rest ih =>
    intro freed st storage hts hnd hkeys
    obtain ⟨hr0nin, hndrest⟩ := List.nodup_cons.mp hnd
    by_cases hfr : freed ≥ required
    · have hstep : evictLoop required (r0 :: rest) freed st = st := by
        simp [evictLoop, hfr]
      rw [hstep]
      exact ⟨rfl, 0, by simp, Or.inl (by omega)⟩
    · cases hgi : storage.getItem (cacheKey r0) with
      | none =>
        have hstep : evictLoop required (r0 :: rest) freed st =
            evictLoop required rest freed st := by
          simp [evictLoop, hfr, hts, hgi]
        rw [hstep]
        obtain ⟨hK, fr, hCS, hD⟩ := ih freed st storage hts hndrest
          (fun r hr => hkeys r (List.mem_cons_of_mem r0 hr))
        refine ⟨hK, fr, hCS, ?_⟩
        rcases hD with h | h
        · exact Or.inl h
        · refine Or.inr ?_
          rw [h]
          simp [sumSz, hgi]
      | some c =>
        by_cases hce : c = ""
        · have hstep : evictLoop required (r0 :: rest) freed st =
              evictLoop required rest freed st := by
            simp [evictLoop, hfr, hts, hgi, hce]
          rw [hstep]
          obtain ⟨hK, fr, hCS, hD⟩ := ih freed st storage hts hndrest
            (fun r hr => hkeys r (List.mem_cons_of_mem r0 hr))
          refine ⟨hK, fr, hCS, ?_⟩
          rcases hD with h | h
          · exact Or.inl h
          · refine Or.inr ?_
            rw [h]
            have hbz : blobSize c = 0 := by
              rw [hce]
              decide
            simp [sumSz, hgi, hbz]
        · set st1 : Store Data :=
            { maxSize := st.maxSize
              currentSize := st.currentSize - (blobSize c : Int)
              lastUsed := aerase r0 st.lastUsed
              state := aset r0 none st.state
              lastLoadTime := aerase r0 st.lastLoadTime
              cacheMaxAge := st.cacheMaxAge
              transientStore := some (storage.removeItem (cacheKey r0)) } with hst1
          have hstep : evictLoop required (r0 :: rest) freed st =
              evictLoop required rest (freed + blobSize c) st1 := by
            rw [hst1]
            simp [evictLoop, hfr, hts, hgi, hce]
          have hitemkeep : ∀ r ∈ rest,
              (storage.removeItem (cacheKey r0)).getItem (cacheKey r) =
                storage.getItem (cacheKey r) := by
            intro r hr
            have hner : r ≠ r0 := fun h => hr0nin (h ▸ hr)
            simp only [JsStorage.removeItem, JsStorage.getItem]
            exact alookup_aerase_ne _ (fun hck => hner (cacheKey_inj hck))
          obtain ⟨hK, fr, hCS, hD⟩ := ih (freed + blobSize c) st1
            (storage.removeItem (cacheKey r0)) rfl hndrest
            (by
              intro r hr
              have hner : r ≠ r0 := fun h => hr0nin (h ▸ hr)
              rw [hst1]
              simp only [alookup_aset_ne _ _ hner]
              exact hkeys r (List.mem_cons_of_mem r0 hr))
          rw [hstep]
          refine ⟨?_, blobSize c + fr, ?_, ?_⟩
          · rw [hK, hst1]
            exact aset_map_fst_of_mem _ _ _
              (hkeys r0 (List.mem_cons_self r0 rest))
          · rw [hCS, hst1]
            push_cast
            ring
          · rcases hD with h | h
            · exact Or.inl (by omega)
            · refine Or.inr ?_
              rw [h, sumSz_congr (storage.removeItem (cacheKey r0)) storage rest
                (fun r hr => hitemkeep r hr)]
              simp [sumSz, hgi]

theorem evictLoop_spec {Data : Type} (required : Nat) :
    ∀ (E : List String) (freed : Nat) (st : Store Data) (storage : JsStorage),
      st.transientStore = some storage →
      E.Nodup →
      (∀ r ∈ E, ((storage.getItem (cacheKey r)).getD "") ≠ "") →
      (∀ r ∈ E, (alookup r st.state).isSome) →
      ∃ k ≤ E.length,
        (∀ r ∈ E.take k,
          alookup r (evictLoop required E freed st).state = some none ∧
          alookup r (evictLoop required E freed st).lastUsed = none ∧
          alookup r (evictLoop required E freed st).lastLoadTime = none ∧
          storGetI (evictLoop required E freed st) (cacheKey r) = none) ∧
        (∀ r : String, r ∉ E.take k →
          alookup r (evictLoop required E freed st).state = alookup r st.state ∧
          alookup r (evictLoop required E freed st).lastUsed =
            alookup r st.lastUsed ∧
          alookup r (evictLoop required E freed st).lastLoadTime =
            alookup r st.lastLoadTime ∧
          storGetI (evictLoop required E freed st) (cacheKey r) =
            storGetI st (cacheKey r)) ∧
        (evictLoop required E freed st).currentSize =
          st.currentSize - (sumSz storage (E.take k) : Int) ∧
        (∀ j, j < k → freed + sumSz storage (E.take j) < required) ∧
        (k = E.length ∨ freed + sumSz storage (E.take k) ≥ required) ∧
        (evictLoop required E freed st).state.map Prod.fst =
          st.state.map Prod.fst := by
  intro E
  induction E with
  | nil =>
    intro freed st storage hts hnd hit hkeys
    refine ⟨0, by omega, ?_, ?_, ?_, ?_, ?_, ?_⟩
    · intro r hr
      simp at hr
    · intro r _
      exact ⟨rfl, rfl, rfl, rfl⟩
    · simp [sumSz, evictLoop]
    · intro j hj
      omega
    · left
      rfl
    · rfl
  | cons r0 rest ih =>
    intro freed st storage hts hnd hit hkeys
    by_cases hfr : freed ≥ required
    · have hstep : evictLoop required (r0 :: rest) freed st = st := by
        simp [evictLoop, hfr]
      refine ⟨0, by omega, ?_, ?_, ?_, ?_, ?_, ?_⟩
      · intro r hr
        simp at hr
      · intro r _
        rw [hstep]
        exact ⟨rfl, rfl, rfl, rfl⟩
      · rw [hstep]
        simp [sumSz]
      · intro j hj
        omega
      · right
        simpa [sumSz] using hfr
      · rw [hstep]
    · have hit0 := hit r0 (List.mem_cons_self r0 rest)
      obtain ⟨c, hgi⟩ : ∃ c, storage.getItem (cacheKey r0) = some c := by
        cases hg : storage.getItem (cacheKey r0) with
        | none =>
          rw [hg] at hit0
          exact absurd rfl hit0
        | some c => exact ⟨c, rfl⟩
      have hcne : c ≠ "" := by
        rw [hgi] at hit0
        simpa using hit0
      obtain ⟨hr0nin, hndrest⟩ := List.nodup_cons.mp hnd
      set st1 : Store Data :=
        { maxSize := st.maxSize
          currentSize := st.currentSize - (blobSize c : Int)
          lastUsed := aerase r0 st.lastUsed
          state := aset r0 none st.state
          lastLoadTime := aerase r0 st.lastLoadTime
          cacheMaxAge := st.cacheMaxAge
          transientStore := some (storage.removeItem (cacheKey r0)) } with hst1
      have hstep : evictLoop required (r0 :: rest) freed st =
          evictLoop required rest (freed + blobSize c) st1 := by
        rw [hst1]
        simp [evictLoop, hfr, hts, hgi, hcne]
      have hitemkeep : ∀ r ∈ rest,
          (storage.removeItem (cacheKey r0)).getItem (cacheKey r) =
            storage.getItem (cacheKey r) := by
        intro r hr
        have hner : r ≠ r0 := fun h => hr0nin (h ▸ hr)
        simp only [JsStorage.removeItem, JsStorage.getItem]
        exact alookup_aerase_ne _ (fun hck => hner (cacheKey_inj hck))
      obtain ⟨k', hk'le, hC1, hC2, hCS, hMin, hStop, hKeys⟩ :=
        ih (freed + blobSize c) st1 (storage.removeItem (cacheKey r0)) rfl hndrest
          (by
            intro r hr
            rw [hitemkeep r hr]
            exact hit r (List.mem_cons_of_mem r0 hr))
          (by
            intro r hr
            have hner : r ≠ r0 := fun h => hr0nin (h ▸ hr)
            rw [hst1]
            simp only [alookup_aset_ne _ _ hner]
            exact hkeys r (List.mem_cons_of_mem r0 hr))
      have hsumkeep : ∀ l : List String, (∀ r ∈ l, r ∈ rest) →
          sumSz (storage.removeItem (cacheKey r0)) l = sumSz storage l := by
        intro l hl
        exact sumSz_congr _ _ l (fun r hr => hitemkeep r (hl r hr))
      have htakein : ∀ j : Nat, ∀ r ∈ rest.take j, r ∈ rest :=
        fun j r hr => List.mem_of_mem_take hr
      refine ⟨k' + 1, by simp; omega, ?_, ?_, ?_, ?_, ?_, ?_⟩
      · intro r hr
        rw [List.take_succ_cons, List.mem_cons] at hr
        rw [hstep]
        rcases hr with hr | hr
        · rw [hr]
          have hnin : r0 ∉ rest.take k' := fun h => hr0nin (htakein k' r0 h)
          obtain ⟨h1, h2, h3, h4⟩ := hC2 r0 hnin
          refine ⟨?_, ?_, ?_, ?_⟩
          · rw [h1, hst1]
            exact alookup_aset_self _ _ _
          · rw [h2, hst1]
            exact alookup_aerase_self _ _
          · rw [h3, hst1]
            exact alookup_aerase_self _ _
          · rw [h4, hst1]
            simp only [storGetI, JsStorage.removeItem, JsStorage.getItem]
            exact alookup_aerase_self _ _
        · exact hC1 r hr
      · intro r hrn
        rw [List.take_succ_cons, List.mem_cons] at hrn
        push_neg at hrn
        obtain ⟨hner, hnin⟩ := hrn
        rw [hstep]
        obtain ⟨h1, h2, h3, h4⟩ := hC2 r hnin
        refine ⟨?_, ?_, ?_, ?_⟩
        · rw [h1, hst1]
          exact alookup_aset_ne _ _ hner
        · rw [h2, hst1]
          exact alookup_aerase_ne _ hner
        · rw [h3, hst1]
          exact alookup_aerase_ne _ hner
        · rw [h4, hst1]
          simp only [storGetI, JsStorage.removeItem, JsStorage.getItem, hts]
          exact alookup_aerase_ne _ (fun hck => hner (cacheKey_inj hck))
      · rw [hstep, hCS, hst1]
        rw [List.take_succ_cons]
        have hsum : sumSz storage (r0 :: rest.take k') =
            blobSize c + sumSz storage (rest.take k') := by
          simp [sumSz, hgi]
        rw [hsumkeep (rest.take k') (htakein k'), hsum]
        push_cast
        ring
      · intro j hj
        cases j with
        | zero =>
          simp [sumSz]
          omega
        | succ j' =>
          have hj' : j' < k' := by omega
          have := hMin j' hj'
          rw [hsumkeep (rest.take j') (htakein j')] at this
          rw [List.take_succ_cons]
          have hsum : sumSz storage (r0 :: rest.take j') =
              blobSize c + sumSz storage (rest.take j') := by
            simp [sumSz, hgi]
          rw [hsum]
          omega
      · rcases hStop with h | h
        · left
          simp [h]
        · right
          rw [hsumkeep (rest.take k') (htakein k')] at h
          rw [List.take_succ_cons]
          have hsum : sumSz storage (r0 :: rest.take k') =
              blobSize c + sumSz storage (rest.take k') := by
            simp [sumSz, hgi]
          rw [hsum]
          omega
      · rw [hstep, hKeys, hst1]
        exact aset_map_fst_of_mem _ _ _ (hkeys r0 (List.mem_cons_self r0 rest))

/-- C1: when `Store.set(R, P)` must free space because the new total would
exceed the byte budget, it calls `evictOldest(required, R)`: the eviction
candidates are exactly the *other* routes with a non-null entry and a
`lastUsed` stamp (`R` itself is never a candidate and ends up written), they
are sorted ascending by last-used timestamp, and the entries actually
evicted form a minimal prefix of that sorted list — each eviction happens
only while the freed bytes are still below the required bytes, and the loop
stops as soon as freed ≥ required (or the candidates run out). Stated under
a working `sessionStorage` whose pending writes succeed and in which every
candidate has a *truthy* stored item (a non-empty string): the loop's
`if (cached)` guard skips a candidate whose item is missing or the empty
string, keeping its entry and freeing nothing. -/
theorem C1_set_lru_eviction {Data : Type} (ops : DataOps Data) (st : Store Data)
    (R : String) (d : Data) (now : Nat) (storage : JsStorage)
    (hkey : (alookup R st.state).isSome)
    (hts : st.transientStore = some storage)
    (hout : storage.outcomes = [])
    (hNodup : (st.state.map Prod.fst).Nodup)
    (hItems : ∀ r ∈ (sortedEligible st (some R)).map Prod.fst,
      ((storage.getItem (cacheKey r)).getD "") ≠ "")
    (hEvict : Store.setNewTotal ops st R d > (st.maxSize : Int)) :
    ∃ k ≤ ((sortedEligible st (some R)).map Prod.fst).length,
      alookup R (Store.setRun ops st R d now).state = some (some d) ∧
      List.Sorted (fun a b : String × Nat => a.2 ≤ b.2)
        (sortedEligible st (some R)) ∧
      (∀ r, r ∈ (sortedEligible st (some R)).map Prod.fst ↔
        (r ≠ R ∧ (∃ d₀, alookup r st.state = some (some d₀)) ∧
          (alookup r st.lastUsed).isSome)) ∧
      (∀ r ∈ ((sortedEligible st (some R)).map Prod.fst).take k,
        alookup r (Store.setRun ops st R d now).state = some none) ∧
      (∀ r : String, r ∉ ((sortedEligible st (some R)).map Prod.fst).take k →
        r ≠ R →
        alookup r (Store.setRun ops st R d now).state = alookup r st.state) ∧
      (∀ j, j < k →
        sumSz storage (((sortedEligible st (some R)).map Prod.fst).take j) <
          (Store.setNewTotal ops st R d - (st.maxSize : Int)).toNat) ∧
      (k = ((sortedEligible st (some R)).map Prod.fst).length ∨
        sumSz storage (((sortedEligible st (some R)).map Prod.fst).take k) ≥
          (Store.setNewTotal ops st R d - (st.maxSize : Int)).toNat) := by
  obtain ⟨v, hv⟩ := Option.isSome_iff_exists.mp hkey
  have hEkeys : ∀ r ∈ (sortedEligible st (some R)).map Prod.fst,
      (alookup r st.state).isSome := by
    intro r hr
    rw [mem_sortedEligible] at hr
    obtain ⟨_, ⟨d₀, hd⟩, _⟩ := hr
    rw [hd]
    rfl
  have hEnodup := sortedEligible_nodup st (some R) hNodup
  obtain ⟨k, hkle, hC1, hC2, hCS, hMin, hStop, hKeys⟩ :=
    evictLoop_spec ((Store.setNewTotal ops st R d - (st.maxSize : Int)).toNat)
      ((sortedEligible st (some R)).map Prod.fst) 0 st storage hts hEnodup
      hItems hEkeys
  obtain ⟨hOut, _, _, hSome⟩ :=
    evictLoop_global ((Store.setNewTotal ops st R d - (st.maxSize : Int)).toNat)
      ((sortedEligible st (some R)).map Prod.fst) 0 st
  rw [hts] at hSome
  simp only [Option.isSome_some] at hSome
  obtain ⟨storage1, hts1⟩ := Option.isSome_iff_exists.mp hSome
  have hout1 : storage1.outcomes = [] := by
    have h2 := hOut
    simp only [storOutcomes, hts1, hts, hout] at h2
    exact Option.some_inj.mp h2
  have hEvict' : st.currentSize - (Store.setOldSize st R : Int) +
      (blobSize (ops.stringify d) : Int) > (st.maxSize : Int) := by
    simpa [Store.setNewTotal] using hEvict
  have hts1' : (evictLoop ((st.currentSize - (Store.setOldSize st R : Int) +
      (blobSize (ops.stringify d) : Int) - (st.maxSize : Int)).toNat)
      ((sortedEligible st (some R)).map Prod.fst) 0 st).transientStore =
      some storage1 := hts1
  have hstate : (Store.setRun ops st R d now).state =
      aset R (some d)
        (evictLoop ((Store.setNewTotal ops st R d - (st.maxSize : Int)).toNat)
          ((sortedEligible st (some R)).map Prod.fst) 0 st).state := by
    simp only [Store.setRun, hv]
    rw [if_pos hEvict']
    simp only [Store.evictOldest]
    rw [hts1']
    simp only [JsStorage.setItemRun, hout1]
    rfl
  have hmemE : ∀ r ∈ (sortedEligible st (some R)).map Prod.fst, r ≠ R := by
    intro r hr
    rw [mem_sortedEligible] at hr
    exact hr.1
  refine ⟨k, hkle, ?_, sortedEligible_sorted st (some R), ?_, ?_, ?_, ?_, ?_⟩
  · rw [hstate]
    exact alookup_aset_self _ _ _
  · intro r
    rw [mem_sortedEligible]
  · intro r hr
    rw [hstate]
    have hrE : r ∈ (sortedEligible st (some R)).map Prod.fst :=
      List.mem_of_mem_take hr
    rw [alookup_aset_ne _ _ (hmemE r hrE)]
    exact (hC1 r hr).1
  · intro r hrn hrR
    rw [hstate]
    rw [alookup_aset_ne _ _ hrR]
    exact (hC2 r hrn).1
  · intro j hj
    have := hMin j hj
    omega
  · rcases hStop with h | h
    · exact Or.inl h
    · right
      omega

/-- C1 witness: the eviction theorem applied to the concrete store `c1store`
(10-byte budget fully used by `collections`): writing 8 bytes to `main`
evicts `collections` and writes `main`, never touching the route being
written. -/
theorem C1_set_lru_eviction_witness :
    alookup "main" (Store.setRun demoOps c1store "main" "abcdefgh" 50).state =
      some (some "abcdefgh") ∧
    alookup "collections"
      (Store.setRun demoOps c1store "main" "abcdefgh" 50).state = some none := by
  obtain ⟨k, hk, hmain, _, _, hTake, _, _, hStop⟩ :=
    C1_set_lru_eviction demoOps c1store "main" "abcdefgh" 50
      ⟨[("spa-cache-collections", "0123456789")], []⟩
      (by decide) rfl rfl (by decide) (by decide) (by decide)
  refine ⟨hmain, ?_⟩
  have hlen : ((sortedEligible c1store (some "main")).map Prod.fst).length = 1 := by
    decide
  have hk1 : k = 1 := by
    rcases hStop with h | h
    · omega
    · by_contra hne
      have hk0 : k = 0 := by omega
      rw [hk0] at h
      exact absurd h (by decide)
  subst hk1
  exact hTake "collections" (by decide)

/-- C5 counterexample. The claimed invariant "total serialized size never
exceeds the byte budget" fails when a single payload is larger than the
budget: writing a 20-byte payload into an empty store with a 10-byte budget
leaves both the tracked byte counter (20) and the actually persisted bytes
(20) above `maxSize = 10` — there are no other entries to evict. -/
theorem C5_counterexample :
    (Store.setRun demoOps c5store "main" bigPayload 1).currentSize = 20 ∧
    (Store.setRun demoOps c5store "main" bigPayload 1).maxSize = 10 ∧
    storGetI (Store.setRun demoOps c5store "main" bigPayload 1)
      (cacheKey "main") = some bigPayload ∧
    blobSize bigPayload = 20 := by
  exact ⟨by decide, by decide, by decide, by decide⟩

/-- C5 (amended): the store keeps at most one entry per route (`set`
preserves the configured key set and its distinctness), and a `set` that
would exceed the budget evicts other LRU entries until the freed bytes
reach the requirement; *whenever the eligible entries can free enough* —
in particular whenever the new total fits the budget or the other stored
entries are collectively large enough — the tracked total after the write
is within the budget. (The total can still exceed the budget when the
eligible entries cannot free enough, e.g. a single payload larger than the
budget; see the counterexample.) -/
theorem C5_budget_amended {Data : Type} (ops : DataOps Data) (st : Store Data)
    (R : String) (d : Data) (now : Nat) (storage : JsStorage)
    (hkey : (alookup R st.state).isSome)
    (hts : st.transientStore = some storage)
    (hout : storage.outcomes = [])
    (hNodup : (st.state.map Prod.fst).Nodup)
    (hItems : ∀ r ∈ (sortedEligible st (some R)).map Prod.fst,
      (storage.getItem (cacheKey r)).isSome)
    (hEnough : Store.setNewTotal ops st R d ≤ (st.maxSize : Int) ∨
      (sumSz storage ((sortedEligible st (some R)).map Prod.fst) : Int) ≥
        Store.setNewTotal ops st R d - (st.maxSize : Int)) :
    (Store.setRun ops st R d now).state.map Prod.fst = st.state.map Prod.fst ∧
    ((Store.setRun ops st R d now).state.map Prod.fst).Nodup ∧
    (Store.setRun ops st R d now).currentSize ≤ (st.maxSize : Int) := by
  obtain ⟨v, hv⟩ := Option.isSome_iff_exists.mp hkey
  have hNT : Store.setNewTotal ops st R d =
      st.currentSize - (Store.setOldSize st R : Int) +
        (blobSize (ops.stringify d) : Int) := rfl
  by_cases hbig : Store.setNewTotal ops st R d > (st.maxSize : Int)
  · have hEkeys : ∀ r ∈ (sortedEligible st (some R)).map Prod.fst,
        (alookup r st.state).isSome := by
      intro r hr
      rw [mem_sortedEligible] at hr
      obtain ⟨_, ⟨d₀, hd⟩, _⟩ := hr
      rw [hd]
      rfl
    have hEnodup := sortedEligible_nodup st (some R) hNodup
    obtain ⟨hKeys, fr, hCS, hD⟩ :=
      evictLoop_budget ((Store.setNewTotal ops st R d - (st.maxSize : Int)).toNat)
        ((sortedEligible st (some R)).map Prod.fst) 0 st storage hts hEnodup
        hEkeys
    obtain ⟨hOut, _, _, hSome⟩ :=
      evictLoop_global
        ((Store.setNewTotal ops st R d - (st.maxSize : Int)).toNat)
        ((sortedEligible st (some R)).map Prod.fst) 0 st
    rw [hts] at hSome
    simp only [Option.isSome_some] at hSome
    obtain ⟨storage1, hts1⟩ := Option.isSome_iff_exists.mp hSome
    have hout1 : storage1.outcomes = [] := by
      have h2 := hOut
      simp only [storOutcomes, hts1, hts, hout] at h2
      exact Option.some_inj.mp h2
    have hEvict' : st.currentSize - (Store.setOldSize st R : Int) +
        (blobSize (ops.stringify d) : Int) > (st.maxSize : Int) := by
      simpa [Store.setNewTotal] using hbig
    have hts1' : (evictLoop ((st.currentSize - (Store.setOldSize st R : Int) +
        (blobSize (ops.stringify d) : Int) - (st.maxSize : Int)).toNat)
        ((sortedEligible st (some R)).map Prod.fst) 0 st).transientStore =
        some storage1 := hts1
    have hform : Store.setRun ops st R d now =
        { maxSize := (evictLoop
            ((Store.setNewTotal ops st R d - (st.maxSize : Int)).toNat)
            ((sortedEligible st (some R)).map Prod.fst) 0 st).maxSize
          currentSize := (evictLoop
            ((Store.setNewTotal ops st R d - (st.maxSize : Int)).toNat)
            ((sortedEligible st (some R)).map Prod.fst) 0 st).currentSize -
              (Store.setOldSize st R : Int) +
              (blobSize (ops.stringify d) : Int)
          lastUsed := aset R now (evictLoop
            ((Store.setNewTotal ops st R d - (st.maxSize : Int)).toNat)
            ((sortedEligible st (some R)).map Prod.fst) 0 st).lastUsed
          state := aset R (some d) (evictLoop
            ((Store.setNewTotal ops st R d - (st.maxSize : Int)).toNat)
            ((sortedEligible st (some R)).map Prod.fst) 0 st).state
          lastLoadTime := aset R now (evictLoop
            ((Store.setNewTotal ops st R d - (st.maxSize : Int)).toNat)
            ((sortedEligible st (some R)).map Prod.fst) 0 st).lastLoadTime
          cacheMaxAge := (evictLoop
            ((Store.setNewTotal ops st R d - (st.maxSize : Int)).toNat)
            ((sortedEligible st (some R)).map Prod.fst) 0 st).cacheMaxAge
          transientStore := some ⟨aset (cacheKey R) (ops.stringify d)
            storage1.items, []⟩ } := by
      simp only [Store.setRun, hv]
      rw [if_pos hEvict']
      simp only [Store.evictOldest]
      rw [hts1']
      simp only [JsStorage.setItemRun, hout1]
      rfl
    have hRnotE : R ∉ (sortedEligible st (some R)).map Prod.fst := by
      intro h
      rw [mem_sortedEligible] at h
      exact h.1 rfl
    have hRstate : (alookup R (evictLoop
        ((Store.setNewTotal ops st R d - (st.maxSize : Int)).toNat)
        ((sortedEligible st (some R)).map Prod.fst) 0 st).state).isSome := by
      obtain ⟨h1, _, _, _⟩ := evictLoop_outside
        ((Store.setNewTotal ops st R d - (st.maxSize : Int)).toNat)
        ((sortedEligible st (some R)).map Prod.fst) 0 st R hRnotE
      rw [h1, hv]
      rfl
    refine ⟨?_, ?_, ?_⟩
    · rw [hform]
      simp only
      rw [aset_map_fst_of_mem _ _ _ hRstate]
      exact hKeys
    · rw [hform]
      simp only
      rw [aset_map_fst_of_mem _ _ _ hRstate, hKeys]
      exact hNodup
    · rw [hform]
      simp only
      rw [hCS]
      have hreqc : (((Store.setNewTotal ops st R d -
          (st.maxSize : Int)).toNat : Int)) =
          Store.setNewTotal ops st R d - (st.maxSize : Int) :=
        Int.toNat_of_nonneg (by omega)
      have hfrge : (fr : Int) ≥
          Store.setNewTotal ops st R d - (st.maxSize : Int) := by
        rcases hD with h | h
        · omega
        · rcases hEnough with h2 | h2
          · omega
          · rw [h]
            exact h2
      omega
  · have hEvict'' : ¬(st.currentSize - (Store.setOldSize st R : Int) +
        (blobSize (ops.stringify d) : Int) > (st.maxSize : Int)) := by
      simpa [Store.setNewTotal] using hbig
    have hform : Store.setRun ops st R d now =
        { maxSize := st.maxSize
          currentSize := st.currentSize - (Store.setOldSize st R : Int) +
            (blobSize (ops.stringify d) : Int)
          lastUsed := aset R now st.lastUsed
          state := aset R (some d) st.state
          lastLoadTime := aset R now st.lastLoadTime
          cacheMaxAge := st.cacheMaxAge
          transientStore := some ⟨aset (cacheKey R) (ops.stringify d)
            storage.items, []⟩ } := by
      simp only [Store.setRun, hv]
      rw [if_neg hEvict'']
      rw [hts]
      simp only [JsStorage.setItemRun, hout]
    refine ⟨?_, ?_, ?_⟩
    · rw [hform]
      simp only
      exact aset_map_fst_of_mem _ _ _ hkey
    · rw [hform]
      simp only
      rw [aset_map_fst_of_mem _ _ _ hkey]
      exact hNodup
    · rw [hform]
      simp only
      omega

/-- C5 witness: the amended theorem applied to the concrete store `c1store`
— the write evicts enough and the resulting tracked total is within the
budget, with the route key set unchanged. -/
theorem C5_budget_amended_witness :
    (Store.setRun demoOps c1store "main" "abcdefgh" 50).state.map Prod.fst =
      c1store.state.map Prod.fst ∧
    (Store.setRun demoOps c1store "main" "abcdefgh" 50).currentSize ≤
      (c1store.maxSize : Int) := by
  have h := C5_budget_amended demoOps c1store "main" "abcdefgh" 50
    ⟨[("spa-cache-collections", "0123456789")], []⟩
    (by decide) rfl rfl (by decide) (by decide) (Or.inr (by decide))
  exact ⟨h.1, h.2.2⟩

/-- C6 counterexample. The claim says that after the quota retry also fails,
"the in-memory entry for R remains authoritative". Writing a fresh `main`
entry (no previously persisted entry, `oldSize = 0`) through a storage whose
two scheduled `setItem` calls both throw `QuotaExceededError` leaves the
in-memory entry `null` — the write is rolled back, not kept. Both scheduled
outcomes are consumed, confirming the single retry. -/
theorem C6_counterexample :
    alookup "main" (Store.setRun demoOps c6store "main" "hello" 1).state =
      some none ∧
    storOutcomes (Store.setRun demoOps c6store "main" "hello" 1) = some [] := by
  exact ⟨by decide, by decide⟩

/-- C6 (amended): when the persisted write inside `Store.set(R, P)` throws
`QuotaExceededError`, the store evicts further entries (excluding `R`) and
retries the write exactly once (exactly two scheduled `setItem` outcomes are
consumed). If the retry succeeds, the entry is in memory and persisted. If
the retry also throws, persistence is dropped and the in-memory write is
*rolled back*: the entry is removed when there was no previously persisted
entry for `R` (`oldSize = 0`), and kept (with the new payload) when there
was one; `R`'s stored item is never touched. The embedding is a total
function, so no storage failure can make `set` throw. (Stated with the
byte-budget eviction not triggered, to isolate the quota path.) -/
theorem C6_quota_retry_amended {Data : Type} (ops : DataOps Data)
    (st : Store Data) (R : String) (d : Data) (now : Nat) (storage : JsStorage)
    (o2 : SetOutcome) (restOut : List SetOutcome)
    (hkey : (alookup R st.state).isSome)
    (hts : st.transientStore = some storage)
    (hout : storage.outcomes = SetOutcome.quotaError :: o2 :: restOut)
    (hNoBudget : Store.setNewTotal ops st R d ≤ (st.maxSize : Int)) :
    ∃ storage', (Store.setRun ops st R d now).transientStore = some storage' ∧
      storage'.outcomes = restOut ∧
      (o2 = SetOutcome.success →
        alookup R (Store.setRun ops st R d now).state = some (some d) ∧
        storage'.getItem (cacheKey R) = some (ops.stringify d)) ∧
      (o2 ≠ SetOutcome.success →
        alookup R (Store.setRun ops st R d now).state =
          some (if Store.setOldSize st R > 0 then some d else none) ∧
        storage'.getItem (cacheKey R) = storage.getItem (cacheKey R)) := by
  obtain ⟨v, hv⟩ := Option.isSome_iff_exists.mp hkey
  have hEvict'' : ¬(st.currentSize - (Store.setOldSize st R : Int) +
      (blobSize (ops.stringify d) : Int) > (st.maxSize : Int)) := by
    simpa [Store.setNewTotal] using hNoBudget
  set st2 : Store Data :=
    { maxSize := st.maxSize
      currentSize := st.currentSize - (Store.setOldSize st R : Int) +
        (blobSize (ops.stringify d) : Int)
      lastUsed := aset R now st.lastUsed
      state := aset R (some d) st.state
      lastLoadTime := aset R now st.lastLoadTime
      cacheMaxAge := st.cacheMaxAge
      transientStore := some ⟨storage.items, o2 :: restOut⟩ } with hst2
  set st3 : Store Data :=
    st2.evictOldest (blobSize (ops.stringify d)) (some R) with hst3
  have hRnotE2 : R ∉ (sortedEligible st2 (some R)).map Prod.fst := by
    intro h
    rw [mem_sortedEligible] at h
    exact h.1 rfl
  obtain ⟨hS1, _, _, hSG⟩ := evictLoop_outside (blobSize (ops.stringify d))
    ((sortedEligible st2 (some R)).map Prod.fst) 0 st2 R hRnotE2
  obtain ⟨hOut3, _, _, hSome3⟩ := evictLoop_global (blobSize (ops.stringify d))
    ((sortedEligible st2 (some R)).map Prod.fst) 0 st2
  have hstate3 : alookup R st3.state = some (some d) := by
    rw [hst3, Store.evictOldest, hS1, hst2]
    exact alookup_aset_self _ _ _
  have hitem3 : storGetI st3 (cacheKey R) = storage.getItem (cacheKey R) := by
    rw [hst3, Store.evictOldest, hSG, hst2]
    rfl
  have hSome3' : st3.transientStore.isSome := by
    rw [hst3, Store.evictOldest, hSome3, hst2]
    rfl
  obtain ⟨storage3, hts3⟩ := Option.isSome_iff_exists.mp hSome3'
  have hout3 : storage3.outcomes = o2 :: restOut := by
    have h2 : storOutcomes st3 = storOutcomes st2 := by
      rw [hst3, Store.evictOldest]
      exact hOut3
    rw [hst2] at h2
    simp only [storOutcomes, hts3] at h2
    exact Option.some_inj.mp h2
  have hitems3 : storage3.getItem (cacheKey R) = storage.getItem (cacheKey R) := by
    have := hitem3
    simp only [storGetI, hts3] at this
    exact this
  cases o2 with
  | success =>
    have hfinal : Store.setRun ops st R d now =
        { st3 with transientStore := some (JsStorage.mk
            (aset (cacheKey R) (ops.stringify d) storage3.items) restOut) } := by
      simp only [Store.setRun, hv]
      rw [if_neg hEvict'']
      rw [hts]
      simp only [JsStorage.setItemRun, hout]
      rw [← hst2, ← hst3, hts3]
      simp only [JsStorage.setItemRun, hout3]
    refine ⟨JsStorage.mk (aset (cacheKey R) (ops.stringify d) storage3.items)
      restOut, ?_, rfl, ?_, ?_⟩
    · rw [hfinal]
    · intro _
      constructor
      · rw [hfinal]
        exact hstate3
      · simp only [JsStorage.getItem]
        exact alookup_aset_self _ _ _
    · intro hne
      exact absurd rfl hne
  | quotaError =>
    have hfinal : Store.setRun ops st R d now =
        { st3 with
          transientStore := some (JsStorage.mk storage3.items restOut)
          currentSize := st3.currentSize - (blobSize (ops.stringify d) : Int) +
            (Store.setOldSize st R : Int)
          state := if Store.setOldSize st R > 0 then st3.state
            else aset R none st3.state } := by
      simp only [Store.setRun, hv]
      rw [if_neg hEvict'']
      rw [hts]
      simp only [JsStorage.setItemRun, hout]
      rw [← hst2, ← hst3, hts3]
      simp only [JsStorage.setItemRun, hout3]
    refine ⟨JsStorage.mk storage3.items restOut, ?_, rfl, ?_, ?_⟩
    · rw [hfinal]
    · intro h
      cases h
    · intro _
      constructor
      · rw [hfinal]
        by_cases hold : Store.setOldSize st R > 0
        · simp only [if_pos hold]
          exact hstate3
        · simp only [if_neg hold]
          exact alookup_aset_self _ _ _
      · simp only [JsStorage.getItem] at hitems3 ⊢
        exact hitems3
  | otherError =>
    have hfinal : Store.setRun ops st R d now =
        { st3 with
          transientStore := some (JsStorage.mk storage3.items restOut)
          currentSize := st3.currentSize - (blobSize (ops.stringify d) : Int) +
            (Store.setOldSize st R : Int)
          state := if Store.setOldSize st R > 0 then st3.state
            else aset R none st3.state } := by
      simp only [Store.setRun, hv]
      rw [if_neg hEvict'']
      rw [hts]
      simp only [JsStorage.setItemRun, hout]
      rw [← hst2, ← hst3, hts3]
      simp only [JsStorage.setItemRun, hout3]
    refine ⟨JsStorage.mk storage3.items restOut, ?_, rfl, ?_, ?_⟩
    · rw [hfinal]
    · intro h
      cases h
    · intro _
      constructor
      · rw [hfinal]
        by_cases hold : Store.setOldSize st R > 0
        · simp only [if_pos hold]
          exact hstate3
        · simp only [if_neg hold]
          exact alookup_aset_self _ _ _
      · simp only [JsStorage.getItem] at hitems3 ⊢
        exact hitems3

/-- C6 witness: the amended quota theorem applied to the concrete store
`c6store2` (first `setItem` throws, the retry succeeds) — the entry lands in
memory and both scheduled outcomes are consumed. -/
theorem C6_quota_retry_amended_witness :
    alookup "main" (Store.setRun demoOps c6store2 "main" "hello" 1).state =
      some (some "hello") ∧
    storOutcomes (Store.setRun demoOps c6store2 "main" "hello" 1) = some [] := by
  obtain ⟨storage', hts', hout', hsucc, _⟩ :=
    C6_quota_retry_amended demoOps c6store2 "main" "hello" 1
      ⟨[], [.quotaError, .success]⟩ .success [] (by decide) rfl rfl (by decide)
  obtain ⟨hstate, _⟩ := hsucc rfl
  refine ⟨hstate, ?_⟩
  simp [storOutcomes, hts', hout']
